import Mathlib

/-!
Shallow embedding of the VPG Intelligence Digest core: the two-path signal
scorer with result validation and batching (src/analyzer/scorer.py), the
trend tracker's momentum classification (src/trends/tracker.py), and the
stage orchestrator with cooperative pause/resume/cancel (src/pipeline.py).

Python dicts coming from parsed JSON are modelled by the inductive `JVal`;
machine floats are modelled by rationals; code that can raise is modelled
in `Except String`, the error string naming the Python exception class.
-/

/-- Python `int(x)` on a rational: truncation toward zero. -/
def ratTrunc (q : ℚ) : ℤ := if 0 ≤ q then ⌊q⌋ else ⌈q⌉

/-- Python `round(x)` on a rational: round half to even (banker's rounding). -/
def halfEvenRound (q : ℚ) : ℤ :=
  let f := ⌊q⌋
  let r := q - f
  if r < 1/2 then f
  else if 1/2 < r then f + 1
  else if f % 2 = 0 then f else f + 1

/-- Python `round(x, n)` on a rational. -/
def pyRoundTo (n : ℕ) (q : ℚ) : ℚ := (halfEvenRound (q * 10 ^ n) : ℚ) / 10 ^ n

/-- A parsed-JSON value, as produced by `json.loads` on the remote model's
response text. Python ints, floats and the values stored back by the scorer
are all carried in the `num` constructor as rationals. -/
inductive JVal where
  | null : JVal
  | bool : Bool → JVal
  | num : ℚ → JVal
  | str : String → JVal
  | arr : List JVal → JVal
  | obj : List (String × JVal) → JVal
  deriving Repr

/-- Python truthiness of a JSON value (`if not bus: ...`). -/
def JVal.isTruthy : JVal → Bool
  | .null => false
  | .bool b => b
  | .num q => decide (q ≠ 0)
  | .str s => decide (s ≠ "")
  | .arr xs => !xs.isEmpty
  | .obj kvs => !kvs.isEmpty

/-- Python `isinstance(v, list)`. -/
def JVal.isArr : JVal → Bool
  | .arr _ => true
  | _ => false

/-- Python `d.get(k, default)` on a Python dict modelled as an association list. -/
def getD (kvs : List (String × JVal)) (k : String) (d : JVal) : JVal :=
  match kvs.lookup k with
  | some v => v
  | none => d

/-- Python `d[k] = v`: replace the binding for `k` in place, or append it if absent. -/
def setK (kvs : List (String × JVal)) (k : String) (v : JVal) :
    List (String × JVal) :=
  match kvs with
  | [] => [(k, v)]
  | (k', v') :: rest => if k' = k then (k, v) :: rest else (k', v') :: setK rest k v

/-- Python `d.setdefault(k, v)`. -/
def setDefault (kvs : List (String × JVal)) (k : String) (v : JVal) :
    List (String × JVal) :=
  if (kvs.lookup k).isSome then kvs else kvs ++ [(k, v)]

/-- Decimal digit accumulation for numeric literals. -/
def digitsToNat (cs : List Char) : ℕ :=
  cs.foldl (fun n c => n * 10 + (c.toNat - 48)) 0

/-- Python `float(s)` on a plain decimal string literal: optional sign,
digits with an optional fractional part (`"1"`, `"1."`, `".5"`, `"0.7"`).
Exponent forms and special values are not produced by the code paths
modelled here and are treated as parse failures. -/
def parseDecimal (s : String) : Option ℚ :=
  let cs := s.trim.toList
  let signed : ℚ × List Char :=
    match cs with
    | '-' :: rest => (-1, rest)
    | '+' :: rest => (1, rest)
    | _ => (1, cs)
  let intPart := signed.2.takeWhile Char.isDigit
  let rest := signed.2.dropWhile Char.isDigit
  match rest with
  | [] => if intPart.isEmpty then none else some (signed.1 * digitsToNat intPart)
  | '.' :: frac =>
    if frac.all Char.isDigit && !(intPart.isEmpty && frac.isEmpty) then
      some (signed.1 * ((digitsToNat intPart : ℚ) + (digitsToNat frac : ℚ) / 10 ^ frac.length))
    else none
  | _ => none

/-- Python `float(v)` applied to a JSON value: numbers and booleans convert,
numeric strings parse, `None`/lists/dicts raise `TypeError`, non-numeric
strings raise `ValueError`. -/
def pyFloat : JVal → Except String ℚ
  | .num q => .ok q
  | .bool b => .ok (if b then 1 else 0)
  | .str s =>
    match parseDecimal s with
    | some q => .ok q
    | none => .error "ValueError"
  | _ => .error "TypeError"

/-- The four scoring-dimension weights supplied by configuration
(`get_scoring_weights()["scoring_dimensions"]`; the catalogue has exactly
the four dimensions named in `required_dims`, scorer.py line 128). -/
structure ScoringWeights where
  revenue_impact : ℚ
  time_sensitivity : ℚ
  strategic_alignment : ℚ
  competitive_pressure : ℚ

/-- Digest thresholds from configuration (`thresholds` in scoring-weights). -/
structure DigestThresholds where
  include_in_digest : ℚ
  max_signals_per_digest : ℕ

/-- One business unit from `business-units.json`. -/
structure BusinessUnit where
  id : String
  name : String
  active : Bool
  monitoring_keywords : List String
  key_products : List String
  core_industries : List String

/-- The configuration the scoring pipeline reads. -/
structure Config where
  weights : ScoringWeights
  thresholds : DigestThresholds
  business_units : List BusinessUnit

/-- Python `scores.get(dim_id, 0)` for the dict of dimension scores. -/
def scoreGet (scores : List (String × ℚ)) (k : String) : ℚ :=
  match scores.lookup k with
  | some v => v
  | none => 0

/-- Model of `calculate_composite_score` (scorer.py lines 33-51): weighted sum of the
four configured dimension scores, rounded to 2 decimals. -/
def calculate_composite_score (w : ScoringWeights) (scores : List (String × ℚ)) : ℚ :=
  pyRoundTo 2
    (w.revenue_impact * scoreGet scores "revenue_impact"
      + w.time_sensitivity * scoreGet scores "time_sensitivity"
      + w.strategic_alignment * scoreGet scores "strategic_alignment"
      + w.competitive_pressure * scoreGet scores "competitive_pressure")

/-- Whether `needle` occurs at the start of `hay` (character lists). -/
def listStartsWith : List Char → List Char → Bool
  | [], _ => true
  | _ :: _, [] => false
  | n :: ns, h :: hs => n == h && listStartsWith ns hs

/-- Python substring containment `needle in hay` on strings. -/
def strContains (hay needle : String) : Bool :=
  go hay.toList
where go : List Char → Bool
  | [] => needle.toList.isEmpty
  | c :: cs => listStartsWith needle.toList (c :: cs) || go cs

/-- Insertion step of a stable descending sort: `x` is placed before the
first element whose key is not larger, hence before any equal-key element
already present. -/
def insertDesc (key : α → ℚ) (x : α) : List α → List α
  | [] => [x]
  | y :: ys => if key x < key y then y :: insertDesc key x ys else x :: y :: ys

/-- Stable sort by `key`, descending: the model of Python's
`list.sort(key=..., reverse=True)` (Timsort is stable, and `reverse=True`
flips the order while keeping equal-key elements in list order). -/
def sortByDesc (key : α → ℚ) : List α → List α
  | [] => []
  | x :: xs => insertDesc key x (sortByDesc key xs)

/-- A collected signal, restricted to the fields the scoring pipeline
reads: `id` (database row), `title` and `summary`. -/
structure Signal where
  id : ℕ
  title : String
  summary : String

/-- Python lowering of the signal text: the f-string joining title and
summary (defaulting to empty) followed by lower(). -/
def signalText (s : Signal) : String := (s.title ++ " " ++ s.summary).toLower

/-- The numeric payload of a JSON value, with a default for the non-numeric
constructors (used only where the surrounding code guarantees a number). -/
def numD (v : JVal) (d : ℚ) : ℚ :=
  match v with
  | .num q => q
  | _ => d

/-- Python `v == "lit"` for a JSON value against a string literal. -/
def JVal.eqStr : JVal → String → Bool
  | .str s, t => s == t
  | _, _ => false

/-- Keyword matching of one business unit against the lowered signal text
(the loop body of `match_signal_to_bus`, scorer.py lines 70-95). -/
def buMatchFor (text : String) (bu : BusinessUnit) : Option JVal :=
  let all_keywords := bu.monitoring_keywords ++ bu.key_products ++ bu.core_industries
  let matched := all_keywords.filter (fun k => strContains text k.toLower)
  let score0 : ℚ := matched.length
  let score : ℚ :=
    if !all_keywords.isEmpty && !matched.isEmpty then
      min (2/5 + score0 / max ((all_keywords.length : ℚ) * (1/4)) 1 * (3/5)) 1
    else score0
  if 0 < score then
    some (.obj [("bu_id", .str bu.id),
                ("relevance_score", .num (pyRoundTo 3 score)),
                ("matched_keywords", .arr (matched.map .str))])
  else none

/-- Sort key `x["relevance_score"]` (every match dict built by
`buMatchFor` carries a numeric relevance score). -/
def relevanceKey (m : JVal) : ℚ :=
  match m with
  | .obj kvs => numD (getD kvs "relevance_score" (.num 0)) 0
  | _ => 0

/-- Model of `match_signal_to_bus` (scorer.py lines 54-98): keyword matches of the
active business units against the signal text, sorted by relevance
descending. -/
def match_signal_to_bus (cfg : Config) (signal : Signal) : List JVal :=
  let text := signalText signal
  let found := (cfg.business_units.filter (·.active)).filterMap (buMatchFor text)
  sortByDesc relevanceKey found

/-- The fixed signal-type enum (prompts.py `VALID_SIGNAL_TYPES`). -/
def VALID_SIGNAL_TYPES : List String :=
  ["competitive-threat", "revenue-opportunity", "market-shift",
   "partnership-signal", "customer-intelligence", "technology-trend",
   "trade-tariff"]

/-- Python `signal_type in VALID_SIGNAL_TYPES` for an arbitrary JSON value (only a
matching string is a member of a list of strings). -/
def isValidSignalType : JVal → Bool
  | .str s => VALID_SIGNAL_TYPES.contains s
  | _ => false

/-- The four required dimension ids (scorer.py line 128). -/
def required_dims : List String :=
  ["revenue_impact", "time_sensitivity", "strategic_alignment",
   "competitive_pressure"]

/-- Clamping `max lo (min hi q)`. -/
def clampQ (lo hi q : ℚ) : ℚ := max lo (min hi q)

/-- One iteration of the `relevant_bus` normalization loop (scorer.py
lines 123-124): `bu_match["relevance_score"] = max(0.0, min(1.0,
float(bu_match.get("relevance_score", 0.5))))`. A non-dict element raises
`AttributeError` at `.get`; a non-numeric relevance raises in `float`. -/
def normalizeBuMatch : JVal → Except String JVal
  | .obj bkvs =>
    match pyFloat (getD bkvs "relevance_score" (.num (1/2))) with
    | .error e => .error e
    | .ok q => .ok (.obj (setK bkvs "relevance_score" (.num (clampQ 0 1 q))))
  | _ => .error "AttributeError"

/-- One iteration of the dimension-score loop (scorer.py lines 129-131):
`scores[dim] = max(1, min(10, int(round(float(scores.get(dim, 5))))))`. -/
def normalizeDim (skvs : List (String × JVal)) (dim : String) :
    Except String (List (String × JVal)) :=
  match pyFloat (getD skvs dim (.num 5)) with
  | .error e => .error e
  | .ok q => .ok (setK skvs dim (.num ((max 1 (min 10 (halfEvenRound q)) : ℤ) : ℚ)))

/-- The revenue-score-keyed default estimated-impact tiers
(scorer.py lines 142-150). -/
def impactTier (rev : ℚ) : String :=
  if 8 ≤ rev then "$1M-$5M potential revenue impact"
  else if 6 ≤ rev then "$500K-$2M potential revenue impact"
  else if 4 ≤ rev then "$200K-$500K potential revenue impact"
  else "$100K-$200K potential revenue impact"

/-- Model of `_validate_ai_result` (scorer.py lines 101-153). `ok none` models the
Python `return None` rejection paths; `error` models an uncaught exception
escaping one of the normalization loops. -/
def validate_ai_result : JVal → Except String (Option JVal)
  | .obj kvs =>
    let kvs1 :=
      if isValidSignalType (getD kvs "signal_type" (.str "")) then kvs
      else setK kvs "signal_type" (.str "market-shift")
    let bus := getD kvs1 "relevant_bus" (.arr [])
    if !bus.isTruthy || !bus.isArr then
      .ok none
    else
      let items := match bus with | .arr xs => xs | _ => []
      match items.mapM normalizeBuMatch with
      | .error e => .error e
      | .ok items1 =>
      let kvs2 := setK kvs1 "relevant_bus" (.arr items1)
      match getD kvs2 "scores" (.obj []) with
      | .obj skvs =>
        match List.foldlM normalizeDim skvs required_dims with
        | .error e => .error e
        | .ok skvs1 =>
        let kvs3 := setK kvs2 "scores" (.obj skvs1)
        let kvs4 := setDefault kvs3 "headline" (.str "Industry Signal Detected")
        let kvs5 := setDefault kvs4 "what_summary" (.str "Signal details pending review.")
        let kvs6 := setDefault kvs5 "why_it_matters" (.str "Relevance assessment in progress.")
        let kvs7 := setDefault kvs6 "quick_win" (.str "Review signal and assess BU impact.")
        let kvs8 := setDefault kvs7 "suggested_owner" (.str "BU Manager")
        let ei := getD kvs8 "estimated_impact" .null
        let kvs9 :=
          if !ei.isTruthy || ei.eqStr "TBD" then
            setK kvs8 "estimated_impact"
              (.str (impactTier (numD (getD skvs1 "revenue_impact" (.num 5)) 5)))
          else kvs8
        let kvs10 := setDefault kvs9 "outreach_template" .null
        .ok (some (.obj kvs10))
      | _ => .error "AttributeError"
  | _ => .ok none

/-- The `AnalysisClient` as an oracle: `available` mirrors the configured
flag; `single`/`batch` give the parsed-JSON outcome of `client.analyze` for
the per-signal and batch prompts (`none` models transport failure, retry
exhaustion or unparseable response text — `analyze` catches all of these
and returns `None`). -/
structure Client where
  available : Bool
  single : Signal → Option JVal
  batch : List Signal → Option JVal

/-- Python `d[k]` indexing: `KeyError` when the key is absent. -/
def jIndex (kvs : List (String × JVal)) (k : String) : Except String JVal :=
  match kvs.lookup k with
  | some v => .ok v
  | none => .error "KeyError"

/-- View a JSON object of numeric dimension scores as a rational-valued
dict (after `_validate_ai_result` every required dimension is a number, so
the non-numeric constructors do not occur at the call sites). -/
def scoresToQ : JVal → List (String × ℚ)
  | .obj kvs =>
    kvs.filterMap (fun p =>
      match p.2 with
      | .num q => some (p.1, q)
      | _ => none)
  | _ => []

/-- One element of the `bu_matches` comprehension (scorer.py lines 187-190
and 450-453): `{"bu_id": bu["bu_id"], "relevance_score":
bu["relevance_score"]}` with direct indexing. -/
def buMatchEntry : JVal → Except String JVal
  | .obj b =>
    match jIndex b "bu_id" with
    | .error e => .error e
    | .ok bid =>
      match jIndex b "relevance_score" with
      | .error e => .error e
      | .ok rel => .ok (.obj [("bu_id", bid), ("relevance_score", rel)])
  | _ => .error "TypeError"

/-- Model of `score_signal_ai` (scorer.py lines 156-199). -/
def score_signal_ai (cfg : Config) (client : Client) (signal : Signal) :
    Except String (Option JVal) :=
  if !client.available then .ok none
  else
    match client.single signal with
    | none => .ok none
    | some raw =>
      match validate_ai_result raw with
      | .error e => .error e
      | .ok none => .ok none
      | .ok (some result) =>
        match result with
        | .obj kvs =>
          match jIndex kvs "scores" with
          | .error e => .error e
          | .ok scoresJ =>
          let kvs1 := setK kvs "composite"
            (.num (calculate_composite_score cfg.weights (scoresToQ scoresJ)))
          match jIndex kvs1 "relevant_bus" with
          | .error e => .error e
          | .ok busJ =>
          match
            (match busJ with
             | .arr xs => xs.mapM buMatchEntry
             | _ => Except.error "TypeError") with
          | .error e => .error e
          | .ok bms =>
          let kvs2 := setK kvs1 "bu_matches" (.arr bms)
          .ok (some (.obj (setK kvs2 "analysis_method" (.str "ai"))))
        | _ => .error "TypeError"

/-- Word character for the regex `\b` boundary. -/
def isWordChar (c : Char) : Bool := c.isAlpha || c.isDigit || c == '_'

/-- The character class `[\d,.]`. -/
def isDollarDigit (c : Char) : Bool := c.isDigit || c == ',' || c == '.'

/-- The regex class `\s`. -/
def isPySpace (c : Char) : Bool :=
  c == ' ' || c == '\t' || c == '\n' || c == '\r' || c == '\x0b' || c == '\x0c'

def wordOpt : Option Char → Bool
  | some c => isWordChar c
  | none => false

/-- Boundary `\b`: the characters on either side of the position differ in
word-ness (outside the string counts as non-word). -/
def isBoundary (prev next : Option Char) : Bool := wordOpt prev != wordOpt next

/-- Matching of the regex tail `[bmk]?\b` at a position whose preceding
character is `prev` and remaining text is `rem`; the optional class is
greedy, so the one-character alternative is tried first. Returns the
consumed characters and the remaining text. -/
def tryTail (prev : Char) (rem : List Char) : Option (List Char × List Char) :=
  match rem with
  | c :: rem' =>
    if (c == 'b' || c == 'm' || c == 'k') && isBoundary (some c) rem'.head? then
      some ([c], rem')
    else if isBoundary (some prev) (some c) then some ([], rem)
    else none
  | [] => if isBoundary (some prev) none then some ([], []) else none

/-- Matching of `\s*[bmk]?\b` where `ws` is the maximal remaining
whitespace run: greedy, consuming more whitespace is preferred and the
match backtracks one space at a time. -/
def wsTry (prev : Char) (ws rest : List Char) : Option (List Char × List Char) :=
  match ws with
  | [] => tryTail prev rest
  | c :: ws' =>
    match wsTry c ws' rest with
    | some (tk, rm) => some (c :: tk, rm)
    | none => tryTail prev (c :: (ws' ++ rest))

/-- Matching of the regex remainder `[\d,.]*\s*[bmk]?\b` after at least one
digit-class character (ending in `last`) has been consumed; `rs` is the
rest of the maximal digit-class run. Greedy with backtracking, one
character at a time. When the match stops inside the run the next
character is digit-class, so the whitespace run there is empty. -/
def digitCont (last : Char) (rs rest : List Char) : Option (List Char × List Char) :=
  match rs with
  | c :: rs' =>
    match digitCont c rs' rest with
    | some (tk, rm) => some (c :: tk, rm)
    | none => tryTail last (c :: (rs' ++ rest))
  | [] => wsTry last (rest.takeWhile isPySpace) (rest.dropWhile isPySpace)

/-- One attempt of `re` matching `\$[\d,.]+\s*[bmk]?\b` where `cs` is the
text immediately after a dollar sign. -/
def matchDollarAt (cs : List Char) : Option (List Char × List Char) :=
  match cs with
  | c :: rest' =>
    if isDollarDigit c then
      match digitCont c (rest'.takeWhile isDollarDigit) (rest'.dropWhile isDollarDigit) with
      | some (tk, rm) => some ('$' :: c :: tk, rm)
      | none => none
    else none
  | [] => none

/-- Model of re.finditer over the dollar-amount regex: leftmost,
non-overlapping matches. Recursing on the text after the dollar sign
(rather than after the match) is equivalent because no match ever contains
a further dollar sign, and it makes the recursion structural. -/
def findDollarMatches : List Char → List (List Char)
  | [] => []
  | c :: cs =>
    if c == '$' then
      match matchDollarAt cs with
      | some (m, _) => m :: findDollarMatches cs
      | none => findDollarMatches cs
    else findDollarMatches cs

/-- The multiplier keyed on the end of the raw match
(endswith checks for the b/m/k suffix, scorer.py lines 215-221). -/
def dollarMultiplier (m : List Char) : ℚ :=
  match m.getLast? with
  | some 'b' => 1000000000
  | some 'm' => 1000000
  | some 'k' => 1000
  | _ => 1

/-- The extracted dollar amounts (scorer.py lines 212-226):
the kept match characters are filtered to digits and dots, then parsed with
`ValueError` skipping the match. -/
def dollarAmounts (text : String) : List ℚ :=
  (findDollarMatches text.toList).filterMap (fun m =>
    match parseDecimal (String.mk (m.filter (fun c => c.isDigit || c == '.'))) with
    | some q => some (q * dollarMultiplier m)
    | none => none)

/-- Python `scores.get(k, d)`. -/
def scoreGetD (scores : List (String × ℚ)) (k : String) (d : ℚ) : ℚ :=
  match scores.lookup k with
  | some v => v
  | none => d

/-- Model of `_estimate_impact_heuristic` (scorer.py lines 202-257). The final
revenue-based tiers are the same strings as the validation defaults, so
`impactTier` is shared. -/
def estimate_impact_heuristic (signal : Signal) (signal_type : String)
    (scores : List (String × ℚ)) : String :=
  let text := signalText signal
  let amounts := dollarAmounts text
  let dollarTier : Option String :=
    match amounts with
    | [] => none
    | a :: rest =>
      let maxAmt := rest.foldl max a
      if 1000000000 ≤ maxAmt then
        some ("$" ++ toString (halfEvenRound (maxAmt / 1000000000)) ++ "B+ market opportunity")
      else if 1000000 ≤ maxAmt then
        some ("$" ++ toString (halfEvenRound (maxAmt / 1000000)) ++ "M+ opportunity")
      else if 1000 ≤ maxAmt then
        some ("$" ++ toString (halfEvenRound (maxAmt / 1000)) ++ "K+ opportunity")
      else none
  match dollarTier with
  | some s => s
  | none =>
    let rev := scoreGetD scores "revenue_impact" 5
    if signal_type = "competitive-threat" then
      if 7 ≤ rev then "Defensive — protect $1M+ revenue"
      else "Defensive — protect $500K+ revenue"
    else if signal_type = "trade-tariff" then
      if 7 ≤ rev then "Cost advantage — $1M+ competitive benefit"
      else "Cost advantage — $200K-$500K competitive benefit"
    else impactTier rev

/-- Model of `_generate_heuristic_why` (scorer.py lines 260-277); the `signal`
argument is unused in the source body as well. -/
def generate_heuristic_why (cfg : Config) (signal_type : String)
    (bu_matches : List JVal) : String :=
  let buNames := cfg.business_units.map (fun bu => (bu.id, bu.name))
  let matchedBus := (bu_matches.take 3).map (fun m =>
    match m with
    | .obj kvs =>
      match getD kvs "bu_id" .null with
      | .str bid =>
        match buNames.lookup bid with
        | some n => n
        | none => bid
      | _ => ""
    | _ => "")
  let buStr := if matchedBus.isEmpty then "VPG business units"
               else String.intercalate ", " matchedBus
  if signal_type = "competitive-threat" then
    "A competitor move has been detected that could affect " ++ buStr ++
      ". Monitoring competitor positioning and preparing a defensive response is advised."
  else if signal_type = "revenue-opportunity" then
    "This signal points to a potential revenue opportunity relevant to " ++ buStr ++
      ". Early engagement could secure first-mover advantage."
  else if signal_type = "trade-tariff" then
    "Trade policy changes could create a cost advantage for VPG\x27s India production hub relative to China-dependent competitors, benefiting " ++
      buStr ++ "."
  else if signal_type = "partnership-signal" then
    "A potential partnership or alliance opportunity has been identified that aligns with " ++
      buStr ++ " strategic priorities."
  else if signal_type = "technology-trend" then
    "An emerging technology trend could impact " ++ buStr ++
      " product roadmaps or create new market opportunities."
  else if signal_type = "customer-intelligence" then
    "Customer activity signals suggest " ++ buStr ++
      " should evaluate account strategy and prepare updated talking points."
  else if signal_type = "market-shift" then
    "Industry dynamics are shifting in a way that could create both risks and opportunities for " ++
      buStr ++ "."
  else
    "This development is relevant to " ++ buStr ++ " and warrants review."

/-- Model of `_generate_heuristic_quick_win` (scorer.py lines 280-291). -/
def generate_heuristic_quick_win (signal_type : String) : String :=
  if signal_type = "competitive-threat" then
    "Brief sales team on competitive positioning. Prepare counter-messaging for affected accounts."
  else if signal_type = "revenue-opportunity" then
    "Identify decision-maker contacts and prepare an initial outreach draft within the week."
  else if signal_type = "trade-tariff" then
    "Quantify cost advantage vs. China-sourced competitors and update pricing models."
  else if signal_type = "partnership-signal" then
    "Research the partner\x27s strategic priorities and identify mutual value propositions."
  else if signal_type = "technology-trend" then
    "Map current product capabilities against the emerging trend. Identify gaps and content opportunities."
  else if signal_type = "customer-intelligence" then
    "Schedule internal account review and prepare updated talking points for the next customer interaction."
  else if signal_type = "market-shift" then
    "Circulate this signal to the BU leadership team for impact assessment and response planning."
  else "Review the signal details and assess relevance to current BU priorities."

/-- Model of `_generate_heuristic_owner` (scorer.py lines 294-305). -/
def generate_heuristic_owner (signal_type : String) : String :=
  if signal_type = "competitive-threat" then "VP Sales / Product Marketing"
  else if signal_type = "revenue-opportunity" then "BU Sales Director"
  else if signal_type = "trade-tariff" then "VP Operations / Supply Chain"
  else if signal_type = "partnership-signal" then "VP Business Development"
  else if signal_type = "technology-trend" then "CTO / Product Engineering Lead"
  else if signal_type = "customer-intelligence" then "Key Account Manager"
  else if signal_type = "market-shift" then "BU General Manager"
  else "BU Manager"

/-- Model of `score_signal_heuristic` (scorer.py lines 308-383). -/
def score_signal_heuristic (cfg : Config) (signal : Signal) : JVal :=
  let bu_matches := match_signal_to_bus cfg signal
  let text := signalText signal
  let signal_type :=
    if ["competitor", "competes", "launch", "threat", "rival"].any (strContains text) then
      "competitive-threat"
    else if ["rfi", "rfp", "order", "partner", "revenue", "opportunity", "seeking"].any
        (strContains text) then
      "revenue-opportunity"
    else if ["tariff", "trade", "duty", "import", "export"].any (strContains text) then
      "trade-tariff"
    else if ["acqui", "partner", "alliance", "joint venture"].any (strContains text) then
      "partnership-signal"
    else if ["patent", "innovation", "breakthrough", "technology"].any (strContains text) then
      "technology-trend"
    else "market-shift"
  -- (base_revenue, base_time, base_competitive): defaults (5, 5, 4) with the
  -- per-type boosts of scorer.py lines 335-352
  let bases : ℚ × ℚ × ℚ :=
    if signal_type = "competitive-threat" then (5, 7, 7)
    else if signal_type = "revenue-opportunity" then (7, 7, 4)
    else if signal_type = "trade-tariff" then (7, 5, 6)
    else if signal_type = "partnership-signal" then (6, 5, 4)
    else if signal_type = "technology-trend" then (5, 5, 4)
    else (5, 5, 4)
  let alignment : ℚ :=
    match bu_matches with
    | m :: _ => max 4 (min ((ratTrunc (relevanceKey m * 10) : ℤ) : ℚ) 10)
    | [] => 3
  let scores : List (String × ℚ) :=
    [("revenue_impact", bases.1), ("time_sensitivity", bases.2.1),
     ("strategic_alignment", alignment), ("competitive_pressure", bases.2.2)]
  let composite := calculate_composite_score cfg.weights scores
  .obj [("scores", .obj (scores.map (fun p => (p.1, JVal.num p.2)))),
        ("composite", .num composite),
        ("bu_matches", .arr bu_matches),
        ("signal_type", .str signal_type),
        ("headline", .str signal.title),
        ("what_summary", .str signal.summary),
        ("why_it_matters", .str (generate_heuristic_why cfg signal_type bu_matches)),
        ("quick_win", .str (generate_heuristic_quick_win signal_type)),
        ("suggested_owner", .str (generate_heuristic_owner signal_type)),
        ("estimated_impact", .str (estimate_impact_heuristic signal signal_type scores)),
        ("outreach_template", .null),
        ("analysis_method", .str "heuristic")]

/-- Model of `score_signal` (scorer.py lines 386-407): AI first, heuristic
fallback on a null AI result. -/
def score_signal (cfg : Config) (client : Client) (signal : Signal) :
    Except String JVal :=
  match score_signal_ai cfg client signal with
  | .error e => .error e
  | .ok (some r) => .ok r
  | .ok none => .ok (score_signal_heuristic cfg signal)

/-- The batch-path enrichment of one validated element (scorer.py lines
449-454): composite, `bu_matches` from `validated.get("relevant_bus", [])`,
and the `"ai-batch"` tag. -/
def enrichBatchResult (cfg : Config) : JVal → Except String JVal
  | .obj kvs =>
    match jIndex kvs "scores" with
    | .error e => .error e
    | .ok scoresJ =>
    let kvs1 := setK kvs "composite"
      (.num (calculate_composite_score cfg.weights (scoresToQ scoresJ)))
    match
      (match getD kvs1 "relevant_bus" (.arr []) with
       | .arr xs => xs.mapM buMatchEntry
       | _ => Except.error "TypeError") with
    | .error e => .error e
    | .ok bms =>
    let kvs2 := setK kvs1 "bu_matches" (.arr bms)
    .ok (.obj (setK kvs2 "analysis_method" (.str "ai-batch")))
  | _ => .error "TypeError"

/-- Model of `score_batch_ai` (scorer.py lines 410-457). -/
def score_batch_ai (cfg : Config) (client : Client) (signals : List Signal) :
    Except String (List JVal) :=
  if !client.available || signals.isEmpty then
    .ok (signals.map (score_signal_heuristic cfg))
  else
    match client.batch signals with
    | none => signals.mapM (score_signal cfg client)
    | some raw =>
      match raw with
      | .arr items =>
        if items.length = signals.length then
          (signals.zip items).mapM (fun p =>
            match validate_ai_result p.2 with
            | .error e => .error e
            | .ok none => score_signal cfg client p.1
            | .ok (some validated) => enrichBatchResult cfg validated)
        else signals.mapM (score_signal cfg client)
      | _ => signals.mapM (score_signal cfg client)

/-- The value read at `analysis["composite"]` (pipeline.py lines 238 and
246): both scorer paths always store a numeric composite, so the default
branches are unreachable at the call sites. -/
def compositeOf (a : JVal) : ℚ :=
  match a with
  | .obj kvs => numD (getD kvs "composite" (.num 0)) 0
  | _ => 0

/-- Batch size for AI analysis (pipeline.py line 48). -/
def AI_BATCH_SIZE : ℕ := 10

/-- Structural worker for `chunkList`: `acc` is the current chunk
(reversed) and `room` the space left in it. -/
def chunkGo (size : ℕ) : List α → ℕ → List α → List (List α)
  | acc, _, [] => if acc.isEmpty then [] else [acc.reverse]
  | acc, 0, x :: xs => acc.reverse :: chunkGo size [x] (size - 1) xs
  | acc, room + 1, x :: xs => chunkGo size (x :: acc) room xs

/-- The slicing loop `for i in range(0, len(l), n): batch = l[i:i+n]`. -/
def chunkList (size : ℕ) : List α → List (List α)
  | [] => []
  | x :: xs => chunkGo size [x] (size - 1) xs

/-- The observable outcome of `stage_score` (pipeline.py lines 198-271):
`persisted` records every `insert_analysis(conn, signal["id"], analysis)`
call in order; `digest` is the returned `scored_signals` list. -/
structure StageScoreResult where
  persisted : List (ℕ × JVal)
  digest : List (Signal × JVal)

/-- The body of the batch loop of `stage_score` (pipeline.py lines
225-252): score one batch (batch AI scoring when the client is available
and the batch has more than one signal, individual scoring otherwise) and
append the `zip(batch, results)` pairs. -/
def scoreBatchStep (cfg : Config) (client : Client)
    (acc : List (Signal × JVal)) (batch : List Signal) :
    Except String (List (Signal × JVal)) :=
  match
    (if client.available && decide (1 < batch.length) then
      score_batch_ai cfg client batch
    else
      batch.mapM (score_signal cfg client)) with
  | .error e => .error e
  | .ok results => .ok (acc ++ batch.zip results)

/-- Model of `stage_score` (pipeline.py lines 198-271) as a function of the
validated signals; an exception escaping the scorer propagates to the
orchestrator. -/
def stage_score (cfg : Config) (client : Client) (validated : List Signal) :
    Except String StageScoreResult :=
  if validated.isEmpty then .ok ⟨[], []⟩
  else
    match (chunkList AI_BATCH_SIZE validated).foldlM (scoreBatchStep cfg client) [] with
    | .error e => .error e
    | .ok pairs =>
      let persisted := pairs.map (fun p => (p.1.id, p.2))
      let scored0 := pairs.filter
        (fun p => cfg.thresholds.include_in_digest ≤ compositeOf p.2)
      let sorted := sortByDesc (fun p => compositeOf p.2) scored0
      .ok ⟨persisted, sorted.take cfg.thresholds.max_signals_per_digest⟩

/-- An exception escaping a stage: the distinguishable `PipelineCancelled`
control signal, or any other `Exception` with its message. -/
inductive PyExc where
  | cancelled
  | exc (msg : String)
  deriving DecidableEq

/-- Oracle outcomes for the collaborator stages and the `check_point()`
calls of `run_full_pipeline` (pipeline.py lines 369-404). -/
structure StageOutcomes where
  collect : Except PyExc ℕ
  cp1 : Except PyExc Unit
  validate : Except PyExc ℕ
  cp2 : Except PyExc Unit
  score : Except PyExc (List (Signal × JVal))
  cp3 : Except PyExc Unit
  trend : Except PyExc ℕ
  cp4 : Except PyExc Unit
  compose : Except PyExc Unit
  cp5 : Except PyExc Unit
  deliver : Except PyExc Unit

/-- One `complete_pipeline_run` call: the terminal status, the error
message, and the counts passed (when supplied). -/
structure Completion where
  status : String
  error_message : Option String
  signals_scored : Option ℕ
  deriving DecidableEq

/-- The `try:` body of `run_full_pipeline`: the stages entered (by their
`current_stage` names) and either the completion it records or the
exception that escapes. -/
def pipelineBody (o : StageOutcomes) : List String × Except PyExc Completion :=
  match o.collect with
  | .error e => (["collection"], .error e)
  | .ok _ =>
  match o.cp1 with
  | .error e => (["collection"], .error e)
  | .ok _ =>
  match o.validate with
  | .error e => (["collection", "validation"], .error e)
  | .ok _ =>
  match o.cp2 with
  | .error e => (["collection", "validation"], .error e)
  | .ok _ =>
  match o.score with
  | .error e => (["collection", "validation", "scoring"], .error e)
  | .ok scored =>
  match o.cp3 with
  | .error e => (["collection", "validation", "scoring"], .error e)
  | .ok _ =>
  if scored.isEmpty then
    (["collection", "validation", "scoring"], .ok ⟨"completed", none, some 0⟩)
  else
  match o.trend with
  | .error e => (["collection", "validation", "scoring", "trends"], .error e)
  | .ok _ =>
  match o.cp4 with
  | .error e => (["collection", "validation", "scoring", "trends"], .error e)
  | .ok _ =>
  match o.compose with
  | .error e => (["collection", "validation", "scoring", "trends", "composition"], .error e)
  | .ok _ =>
  match o.cp5 with
  | .error e => (["collection", "validation", "scoring", "trends", "composition"], .error e)
  | .ok _ =>
  match o.deliver with
  | .error e =>
    (["collection", "validation", "scoring", "trends", "composition", "delivery"], .error e)
  | .ok _ =>
    (["collection", "validation", "scoring", "trends", "composition", "delivery"],
     .ok ⟨"completed", none, some scored.length⟩)

/-- Observable outcome of `run_full_pipeline` (pipeline.py lines 354-435):
every `complete_pipeline_run` call in order, whether the `finally` closed
the connection, the stages entered, and the `"status"` of the returned
dict. -/
structure RunOutcome where
  completions : List Completion
  connClosed : Bool
  stagesRun : List String
  returnStatus : String

/-- Model of `run_full_pipeline`: the `try/except PipelineCancelled/except
Exception/finally` wrapper around the stage sequence. -/
def run_full_pipeline (o : StageOutcomes) : RunOutcome :=
  match pipelineBody o with
  | (stages, .ok c) => ⟨[c], true, stages, c.status⟩
  | (stages, .error .cancelled) =>
    ⟨[⟨"cancelled", some "Cancelled by user", none⟩], true, stages, "cancelled"⟩
  | (stages, .error (.exc m)) => ⟨[⟨"failed", some m, none⟩], true, stages, "failed"⟩

/-- The `PipelineControl` shared state: the two flags and the
`threading.Event` pause gate (`pauseEventSet = true` means the gate is
open). -/
structure PipelineControl where
  paused : Bool
  cancelled : Bool
  pauseEventSet : Bool
  deriving DecidableEq

/-- Fresh control state (`__init__`, pipeline.py lines 56-62). -/
def PipelineControl.init : PipelineControl := ⟨false, false, true⟩

/-- Model of `pause()` (pipeline.py lines 64-67): sets the flag and clears the gate. -/
def PipelineControl.pause (s : PipelineControl) : PipelineControl :=
  { s with paused := true, pauseEventSet := false }

/-- Model of `resume()` (pipeline.py lines 69-72). -/
def PipelineControl.resume (s : PipelineControl) : PipelineControl :=
  { s with paused := false, pauseEventSet := true }

/-- Model of `cancel()` (pipeline.py lines 74-77): sets the flag and opens the gate
to unblock a paused run. -/
def PipelineControl.cancel (s : PipelineControl) : PipelineControl :=
  { s with cancelled := true, pauseEventSet := true }

/-- Model of `reset()` (pipeline.py lines 79-83). -/
def PipelineControl.reset (_ : PipelineControl) : PipelineControl := ⟨false, false, true⟩

/-- What one `check_point()` call does in the state it observes. -/
inductive CheckPointOutcome where
  | blocked
  | raisesCancelled
  | proceeds
  deriving DecidableEq

/-- Model of `check_point()` (pipeline.py lines 103-110): `self._pause_event.wait()`
blocks while the gate is cleared; once past the gate it raises
`PipelineCancelled` iff the cancelled flag is set. -/
def checkPoint (s : PipelineControl) : CheckPointOutcome :=
  if !s.pauseEventSet then .blocked
  else if s.cancelled then .raisesCancelled
  else .proceeds

/-- The control object's mutating operations. -/
inductive ControlOp where
  | pause
  | resume
  | cancel
  | reset
  deriving DecidableEq

def applyOp (s : PipelineControl) : ControlOp → PipelineControl
  | .pause => s.pause
  | .resume => s.resume
  | .cancel => s.cancel
  | .reset => s.reset

def applyOps (s : PipelineControl) (ops : List ControlOp) : PipelineControl :=
  ops.foldl applyOp s

/-- A persisted `trends` row, restricted to the columns the update writes
(tracker.py lines 156-189). -/
structure Trend where
  occurrence_count : ℕ
  avg_score : ℚ
  max_score : ℚ
  momentum : String
  week_over_week_change : ℚ
  first_seen : String
  last_seen : String
  deriving DecidableEq

/-- One aggregation bucket built for the current run
(`aggregations[trend_key]`): this run's occurrence count and scores. -/
structure TrendAgg where
  count : ℕ
  scores : List ℚ

/-- The per-key update step of `update_trends` (tracker.py lines 126-198):
the row written back for one trend key, given the existing row if any.
On insert the `week_over_week_change` column is left at its schema
default, modelled as 0. -/
def applyTrendUpdate (existing : Option Trend) (agg : TrendAgg) (today : String) :
    Trend :=
  let avg_score : ℚ := if agg.scores.isEmpty then 0 else agg.scores.sum / agg.scores.length
  let max_score : ℚ :=
    match agg.scores with
    | [] => 0
    | a :: rest => rest.foldl max a
  match existing with
  | some t =>
    let change : ℚ :=
      ((agg.count : ℚ) - (t.occurrence_count : ℚ)) / max (t.occurrence_count : ℚ) 1 * 100
    let momentum :=
      if (agg.count : ℚ) > (t.occurrence_count : ℚ) * (3/2) then "spike"
      else if agg.count > t.occurrence_count then "rising"
      else if agg.count < t.occurrence_count then "declining"
      else "stable"
    { occurrence_count := t.occurrence_count + agg.count,
      avg_score := pyRoundTo 2 avg_score,
      max_score := max t.max_score max_score,
      momentum := momentum,
      week_over_week_change := pyRoundTo 1 change,
      first_seen := t.first_seen,
      last_seen := today }
  | none =>
    { occurrence_count := agg.count,
      avg_score := pyRoundTo 2 avg_score,
      max_score := max_score,
      momentum := "new",
      week_over_week_change := 0,
      first_seen := today,
      last_seen := today }
-- ── helper lemmas: Except monad reductions ───────────────────────────

lemma except_bind_ok {α β : Type} (a : α) (f : α → Except String β) :
    (Except.ok a >>= f) = f a := rfl

lemma except_bind_error {α β : Type} (e : String) (f : α → Except String β) :
    ((Except.error e : Except String α) >>= f) = .error e := rfl

lemma except_pure_eq {β : Type} (b : β) : (pure b : Except String β) = .ok b := rfl

-- ── helper lemmas on the dict operations ─────────────────────────────

lemma lookup_cons_self (p : String × JVal) (rest : List (String × JVal)) (k : String)
    (h : p.1 = k) : ((p :: rest).lookup k) = some p.2 := by
  have hb : (k == p.1) = true := beq_iff_eq.mpr h.symm
  simp [List.lookup, hb]

lemma lookup_cons_ne (p : String × JVal) (rest : List (String × JVal)) (k : String)
    (h : p.1 ≠ k) : ((p :: rest).lookup k) = rest.lookup k := by
  have hb : (k == p.1) = false := beq_eq_false_iff_ne.mpr (Ne.symm h)
  simp [List.lookup, hb]

lemma lookup_setK_self (kvs : List (String × JVal)) (k : String) (v : JVal) :
    (setK kvs k v).lookup k = some v := by
  induction kvs with
  | nil => exact lookup_cons_self _ _ _ rfl
  | cons p rest ih =>
    by_cases h : p.1 = k
    · simp only [setK, if_pos h]
      exact lookup_cons_self _ _ _ rfl
    · simp only [setK, if_neg h]
      rw [lookup_cons_ne _ _ _ h]
      exact ih

lemma lookup_setK_ne (kvs : List (String × JVal)) (k k' : String) (v : JVal)
    (h : k' ≠ k) : (setK kvs k v).lookup k' = kvs.lookup k' := by
  induction kvs with
  | nil =>
    simp only [setK]
    rw [lookup_cons_ne _ _ _ (Ne.symm h)]
  | cons p rest ih =>
    by_cases hp : p.1 = k
    · simp only [setK, if_pos hp]
      rw [lookup_cons_ne ⟨k, v⟩ rest k' (Ne.symm h), lookup_cons_ne p rest k' (by rw [hp]; exact Ne.symm h)]
    · simp only [setK, if_neg hp]
      by_cases hpk : p.1 = k'
      · rw [lookup_cons_self _ _ _ hpk, lookup_cons_self _ _ _ hpk]
      · rw [lookup_cons_ne _ _ _ hpk, lookup_cons_ne _ _ _ hpk]
        exact ih

lemma lookup_append_single (kvs : List (String × JVal)) (k k' : String) (v : JVal)
    (h : k' ≠ k) : ((kvs ++ [(k, v)]).lookup k') = kvs.lookup k' := by
  induction kvs with
  | nil =>
    simp only [List.nil_append]
    rw [lookup_cons_ne ⟨k, v⟩ [] k' (Ne.symm h)]
  | cons p rest ih =>
    by_cases hpk : p.1 = k'
    · rw [List.cons_append, lookup_cons_self _ _ _ hpk, lookup_cons_self _ _ _ hpk]
    · rw [List.cons_append, lookup_cons_ne _ _ _ hpk, lookup_cons_ne _ _ _ hpk]
      exact ih

lemma lookup_setDefault_ne (kvs : List (String × JVal)) (k k' : String) (v : JVal)
    (h : k' ≠ k) : (setDefault kvs k v).lookup k' = kvs.lookup k' := by
  unfold setDefault
  split
  · rfl
  · exact lookup_append_single kvs k k' v h

lemma getD_setK_ne (kvs : List (String × JVal)) (k k' : String) (v d : JVal)
    (h : k' ≠ k) : getD (setK kvs k v) k' d = getD kvs k' d := by
  unfold getD
  rw [lookup_setK_ne _ _ _ _ h]

lemma getD_setDefault_ne (kvs : List (String × JVal)) (k k' : String) (v d : JVal)
    (h : k' ≠ k) : getD (setDefault kvs k v) k' d = getD kvs k' d := by
  unfold getD
  rw [lookup_setDefault_ne _ _ _ _ h]

-- ── length lemmas ────────────────────────────────────────────────────

lemma except_mapM_length {α β : Type} (f : α → Except String β) :
    ∀ (l : List α) (ys : List β), l.mapM f = .ok ys → ys.length = l.length := by
  intro l
  induction l with
  | nil =>
    intro ys h
    rw [List.mapM_nil, except_pure_eq] at h
    cases h
    rfl
  | cons x xs ih =>
    intro ys h
    rw [List.mapM_cons] at h
    cases hx : f x with
    | error e => rw [hx, except_bind_error] at h; cases h
    | ok y =>
      rw [hx, except_bind_ok] at h
      cases hxs : List.mapM f xs with
      | error e => rw [hxs, except_bind_error] at h; cases h
      | ok ys' =>
        rw [hxs, except_bind_ok, except_pure_eq] at h
        cases h
        simp [ih ys' hxs]


-- ── stable descending sort lemmas ────────────────────────────────────

lemma insertDesc_perm {α : Type} (key : α → ℚ) (x : α) (l : List α) :
    (insertDesc key x l).Perm (x :: l) := by
  induction l with
  | nil => exact List.Perm.refl _
  | cons y ys ih =>
    by_cases h : key x < key y
    · rw [insertDesc, if_pos h]
      exact (ih.cons y).trans (List.Perm.swap x y ys)
    · rw [insertDesc, if_neg h]

lemma sortByDesc_perm {α : Type} (key : α → ℚ) (l : List α) :
    (sortByDesc key l).Perm l := by
  induction l with
  | nil => exact List.Perm.refl _
  | cons x xs ih => exact (insertDesc_perm key x (sortByDesc key xs)).trans (ih.cons x)

lemma mem_insertDesc {α : Type} {key : α → ℚ} {x a : α} {l : List α} :
    a ∈ insertDesc key x l ↔ a = x ∨ a ∈ l := by
  rw [(insertDesc_perm key x l).mem_iff, List.mem_cons]

lemma pairwise_insertDesc {α : Type} (key : α → ℚ) (x : α) {l : List α}
    (h : l.Pairwise (fun a b => key b ≤ key a)) :
    (insertDesc key x l).Pairwise (fun a b => key b ≤ key a) := by
  induction l with
  | nil => simp [insertDesc]
  | cons y ys ih =>
    rcases List.pairwise_cons.mp h with ⟨hy, hys⟩
    by_cases hlt : key x < key y
    · rw [insertDesc, if_pos hlt]
      refine List.Pairwise.cons ?_ (ih hys)
      intro b hb
      rcases mem_insertDesc.mp hb with rfl | hbys
      · exact hlt.le
      · exact hy b hbys
    · rw [insertDesc, if_neg hlt]
      have hxy : key y ≤ key x := not_lt.mp hlt
      refine List.Pairwise.cons ?_ h
      intro b hb
      rcases List.mem_cons.mp hb with rfl | hbys
      · exact hxy
      · exact (hy b hbys).trans hxy

lemma pairwise_sortByDesc {α : Type} (key : α → ℚ) (l : List α) :
    (sortByDesc key l).Pairwise (fun a b => key b ≤ key a) := by
  induction l with
  | nil => simp [sortByDesc]
  | cons x xs ih => exact pairwise_insertDesc key x ih

lemma sublist_insertDesc {α : Type} (key : α → ℚ) (x : α) (l : List α) :
    l.Sublist (insertDesc key x l) := by
  induction l with
  | nil => exact List.nil_sublist _
  | cons y ys ih =>
    by_cases h : key x < key y
    · rw [insertDesc, if_pos h]
      exact ih.cons₂ y
    · rw [insertDesc, if_neg h]
      exact List.sublist_cons_self x (y :: ys)

lemma pair_sublist_insertDesc {α : Type} (key : α → ℚ) (a b : α) {s : List α}
    (hs : s.Pairwise (fun u v => key v ≤ key u)) (hb : b ∈ s) (hba : key b ≤ key a) :
    [a, b].Sublist (insertDesc key a s) := by
  induction s with
  | nil => cases hb
  | cons y ys ih =>
    rcases List.pairwise_cons.mp hs with ⟨hy, hys⟩
    by_cases hlt : key a < key y
    · rw [insertDesc, if_pos hlt]
      have hbys : b ∈ ys := by
        rcases List.mem_cons.mp hb with rfl | h
        · exact absurd (lt_of_lt_of_le hlt hba) (lt_irrefl _)
        · exact h
      exact (ih hys hbys).cons y
    · rw [insertDesc, if_neg hlt]
      exact (List.singleton_sublist.mpr hb).cons₂ a

lemma sortByDesc_stable {α : Type} (key : α → ℚ) (a b : α) : ∀ (l : List α),
    [a, b].Sublist l → key b ≤ key a → [a, b].Sublist (sortByDesc key l) := by
  intro l
  induction l with
  | nil => intro hab _; cases hab
  | cons x xs ih =>
    intro hab hba
    cases hab with
    | cons _ h => exact ((ih h hba).trans (sublist_insertDesc key x (sortByDesc key xs)))
    | cons₂ _ h =>
      have hbmem : b ∈ sortByDesc key xs :=
        (sortByDesc_perm key xs).mem_iff.mpr (List.singleton_sublist.mp h)
      exact pair_sublist_insertDesc key a b (pairwise_sortByDesc key xs) hbmem hba

lemma pairwise_take_drop {α : Type} {R : α → α → Prop} {l : List α}
    (hp : l.Pairwise R) (n : ℕ) :
    ∀ a ∈ l.take n, ∀ b ∈ l.drop n, R a b := by
  have h2 : (l.take n ++ l.drop n).Pairwise R := by
    rw [List.take_append_drop]; exact hp
  exact fun a ha b hb => (List.pairwise_append.mp h2).2.2 a ha b hb

-- ── chunking lemmas ──────────────────────────────────────────────────

lemma chunkGo_flatten {α : Type} (size : ℕ) :
    ∀ (rest acc : List α) (room : ℕ),
      (chunkGo size acc room rest).flatten = acc.reverse ++ rest := by
  intro rest
  induction rest with
  | nil =>
    intro acc room
    by_cases h : acc.isEmpty
    · rw [chunkGo, if_pos h]
      simp [List.isEmpty_iff.mp h]
    · rw [chunkGo, if_neg h]
      simp
  | cons x xs ih =>
    intro acc room
    cases room with
    | zero =>
      show (acc.reverse :: chunkGo size [x] (size - 1) xs).flatten = acc.reverse ++ x :: xs
      simp [List.flatten_cons, ih]
    | succ r =>
      show (chunkGo size (x :: acc) r xs).flatten = acc.reverse ++ x :: xs
      rw [ih]
      simp

lemma chunkList_flatten {α : Type} (size : ℕ) (l : List α) :
    (chunkList size l).flatten = l := by
  cases l with
  | nil => rfl
  | cons x xs =>
    show (chunkGo size [x] (size - 1) xs).flatten = x :: xs
    rw [chunkGo_flatten]
    simp


-- ── C5: trend momentum ───────────────────────────────────────────────

/-- Concrete existing trend row with a given occurrence count. -/
def mkTrend (n : ℕ) : Trend := ⟨n, 0, 0, "stable", 0, "", ""⟩

lemma spikeCondIff (o c : ℕ) : ((o:ℚ) * (3/2) < (c:ℚ)) ↔ 3 * o < 2 * c := by
  rw [mul_div_assoc', div_lt_iff₀ (by norm_num : (0:ℚ) < 2)]
  have h : ((o:ℚ) * 3 < (c:ℚ) * 2) ↔ ((o * 3 : ℕ) : ℚ) < ((c * 2 : ℕ) : ℚ) := by
    push_cast
    exact Iff.rfl
  rw [h, Nat.cast_lt]
  omega

lemma momentum_eval (t : Trend) (agg : TrendAgg) (today : String) :
    (applyTrendUpdate (some t) agg today).momentum =
      (if (agg.count : ℚ) > (t.occurrence_count : ℚ) * (3/2) then "spike"
       else if agg.count > t.occurrence_count then "rising"
       else if agg.count < t.occurrence_count then "declining" else "stable") := rfl

/-- C5: for a trend key with an existing record, `update_trends` classifies
momentum as "spike" iff `new > 1.5*old`, "rising" iff `old < new ≤ 1.5*old`,
"declining" iff `new < old`, and "stable" iff `new = old`; a key with no
existing record is created with momentum "new". In particular 10→16 is
spike, 10→11 rising, 10→10 stable, 10→7 declining. -/
theorem trend_momentum_classification :
    (∀ (t : Trend) (agg : TrendAgg) (today : String),
      ((applyTrendUpdate (some t) agg today).momentum = "spike" ↔
        (3/2 : ℚ) * t.occurrence_count < agg.count) ∧
      ((applyTrendUpdate (some t) agg today).momentum = "rising" ↔
        (t.occurrence_count < agg.count ∧ (agg.count : ℚ) ≤ (3/2 : ℚ) * t.occurrence_count)) ∧
      ((applyTrendUpdate (some t) agg today).momentum = "declining" ↔
        agg.count < t.occurrence_count) ∧
      ((applyTrendUpdate (some t) agg today).momentum = "stable" ↔
        agg.count = t.occurrence_count)) ∧
    (∀ (agg : TrendAgg) (today : String),
      (applyTrendUpdate none agg today).momentum = "new") ∧
    (applyTrendUpdate (some (mkTrend 10)) ⟨16, []⟩ "d").momentum = "spike" ∧
    (applyTrendUpdate (some (mkTrend 10)) ⟨11, []⟩ "d").momentum = "rising" ∧
    (applyTrendUpdate (some (mkTrend 10)) ⟨10, []⟩ "d").momentum = "stable" ∧
    (applyTrendUpdate (some (mkTrend 10)) ⟨7, []⟩ "d").momentum = "declining" := by
  refine ⟨?_, fun agg today => rfl, ?_, ?_, ?_, ?_⟩
  · intro t agg today
    rw [momentum_eval]
    set o := t.occurrence_count with ho
    set c := agg.count with hc
    by_cases h1 : (c:ℚ) > (o:ℚ) * (3/2)
    · have h1n : 3 * o < 2 * c := (spikeCondIff o c).mp h1
      rw [if_pos h1]
      refine ⟨iff_of_true rfl (by linarith), iff_of_false (by decide) ?_,
              iff_of_false (by decide) ?_, iff_of_false (by decide) ?_⟩
      · rintro ⟨-, h''⟩; linarith
      · omega
      · omega
    · rw [if_neg h1]
      have h1n : ¬ 3 * o < 2 * c := fun h => h1 ((spikeCondIff o c).mpr h)
      have h1q : (c:ℚ) ≤ (o:ℚ) * (3/2) := not_lt.mp h1
      by_cases h2 : c > o
      · rw [if_pos h2]
        refine ⟨iff_of_false (by decide) (by intro h; linarith),
                iff_of_true rfl ⟨h2, by linarith⟩,
                iff_of_false (by decide) (by omega),
                iff_of_false (by decide) (by omega)⟩
      · rw [if_neg h2]
        by_cases h3 : c < o
        · rw [if_pos h3]
          refine ⟨iff_of_false (by decide) (by intro h; linarith),
                  iff_of_false (by decide) ?_,
                  iff_of_true rfl h3,
                  iff_of_false (by decide) (by omega)⟩
          rintro ⟨h', -⟩; omega
        · rw [if_neg h3]
          refine ⟨iff_of_false (by decide) (by intro h; linarith),
                  iff_of_false (by decide) ?_,
                  iff_of_false (by decide) (by omega),
                  iff_of_true rfl (by omega)⟩
          rintro ⟨h', -⟩; omega
  · rw [momentum_eval]; norm_num [mkTrend]
  · rw [momentum_eval]; norm_num [mkTrend]
  · rw [momentum_eval]; norm_num [mkTrend]
  · rw [momentum_eval]; norm_num [mkTrend]

-- ── C10: pipeline control ────────────────────────────────────────────

lemma cancelled_persists : ∀ (ops : List ControlOp) (s : PipelineControl),
    s.cancelled = true → ControlOp.reset ∉ ops →
    (applyOps s ops).cancelled = true := by
  intro ops
  induction ops with
  | nil => intro s h _; exact h
  | cons op rest ih =>
    intro s h hmem
    have hop : op ≠ ControlOp.reset := fun he => hmem (he ▸ List.mem_cons_self op rest)
    have hrest : ControlOp.reset ∉ rest := fun hr => hmem (List.mem_cons_of_mem op hr)
    show (applyOps (applyOp s op) rest).cancelled = true
    cases op with
    | pause => exact ih _ h hrest
    | resume => exact ih _ h hrest
    | cancel => exact ih _ rfl hrest
    | reset => exact absurd rfl hop

lemma eventSet_persists : ∀ (ops : List ControlOp) (s : PipelineControl),
    s.pauseEventSet = true → ControlOp.pause ∉ ops →
    (applyOps s ops).pauseEventSet = true := by
  intro ops
  induction ops with
  | nil => intro s h _; exact h
  | cons op rest ih =>
    intro s h hmem
    have hop : op ≠ ControlOp.pause := fun he => hmem (he ▸ List.mem_cons_self op rest)
    have hrest : ControlOp.pause ∉ rest := fun hr => hmem (List.mem_cons_of_mem op hr)
    show (applyOps (applyOp s op) rest).pauseEventSet = true
    cases op with
    | pause => exact absurd rfl hop
    | resume => exact ih _ rfl hrest
    | cancel => exact ih _ rfl hrest
    | reset => exact ih _ rfl hrest

/-- C10 (amended): after `cancel()`, under any later `pause()`/`resume()`/
`cancel()` calls, `check_point()` never returns normally; and when no
`pause()` occurs after the cancel, it raises `PipelineCancelled` without
blocking. (A `pause()` after the cancel re-closes the gate and makes
`check_point()` block — see the counterexample.) -/
theorem cancel_latch (s₀ : PipelineControl) (ops : List ControlOp)
    (hreset : ControlOp.reset ∉ ops) :
    checkPoint (applyOps s₀.cancel ops) ≠ CheckPointOutcome.proceeds ∧
    (ControlOp.pause ∉ ops →
      checkPoint (applyOps s₀.cancel ops) = CheckPointOutcome.raisesCancelled) := by
  have hc : (applyOps s₀.cancel ops).cancelled = true :=
    cancelled_persists ops s₀.cancel rfl hreset
  constructor
  · unfold checkPoint
    cases hev : (applyOps s₀.cancel ops).pauseEventSet with
    | false => simp [hev]
    | true => simp [hev, hc]
  · intro hpause
    have hev : (applyOps s₀.cancel ops).pauseEventSet = true :=
      eventSet_persists ops s₀.cancel rfl hpause
    unfold checkPoint
    simp [hev, hc]

theorem cancel_latch_witness :
    checkPoint (applyOps PipelineControl.init.cancel [ControlOp.resume]) =
      CheckPointOutcome.raisesCancelled :=
  (cancel_latch PipelineControl.init [ControlOp.resume] (by decide)).2 (by decide)

/-- C10 counterexample: calling `pause()` after `cancel()` clears the pause
gate again, so the next `check_point()` blocks instead of raising
`PipelineCancelled` — the claimed invariant "cancelled implies the pause
gate is open" is not preserved by `pause()`. -/
theorem cancel_then_pause_reblocks :
    checkPoint (applyOps PipelineControl.init [ControlOp.cancel, ControlOp.pause]) =
      CheckPointOutcome.blocked := rfl

-- ── C7: run finalization ─────────────────────────────────────────────

/-- C7: `run_full_pipeline` records exactly one terminal completion and
closes the connection on every exit path; a `PipelineCancelled` escaping
the body marks the run "cancelled" (not "failed"), and any other exception
marks it "failed" with the message captured. -/
theorem pipeline_run_finalization (o : StageOutcomes) :
    (run_full_pipeline o).completions.length = 1 ∧
    (run_full_pipeline o).connClosed = true ∧
    ((pipelineBody o).2 = .error .cancelled →
      (run_full_pipeline o).completions =
        [⟨"cancelled", some "Cancelled by user", none⟩] ∧
      (run_full_pipeline o).returnStatus = "cancelled") ∧
    (∀ m, (pipelineBody o).2 = .error (.exc m) →
      (run_full_pipeline o).completions = [⟨"failed", some m, none⟩] ∧
      (run_full_pipeline o).returnStatus = "failed") := by
  rcases hb : pipelineBody o with ⟨stages, r⟩
  cases r with
  | ok c => simp [run_full_pipeline, hb]
  | error e =>
    cases e with
    | cancelled => simp [run_full_pipeline, hb]
    | exc m => simp [run_full_pipeline, hb]

/-- A concrete cancelled run: collection raises the cancellation signal. -/
def cancelledOutcomes : StageOutcomes :=
  ⟨.error .cancelled, .ok (), .ok 0, .ok (), .ok [], .ok (), .ok 0, .ok (), .ok (), .ok (), .ok ()⟩

/-- A concrete failed run: scoring raises an ordinary exception. -/
def failedOutcomes : StageOutcomes :=
  ⟨.ok 3, .ok (), .ok 2, .ok (), .error (.exc "boom"), .ok (), .ok 0, .ok (), .ok (), .ok (), .ok ()⟩

theorem pipeline_run_finalization_witness :
    ((run_full_pipeline cancelledOutcomes).completions =
        [⟨"cancelled", some "Cancelled by user", none⟩] ∧
      (run_full_pipeline cancelledOutcomes).returnStatus = "cancelled") ∧
    ((run_full_pipeline failedOutcomes).completions = [⟨"failed", some "boom", none⟩] ∧
      (run_full_pipeline failedOutcomes).returnStatus = "failed") :=
  ⟨(pipeline_run_finalization cancelledOutcomes).2.2.1 rfl,
   (pipeline_run_finalization failedOutcomes).2.2.2 "boom" rfl⟩

-- ── C9: zero-signal run ──────────────────────────────────────────────

/-- C9: a run in which the scoring stage returns an empty digest set ends
"completed" with `signals_scored = 0`, and the trend, composition and
delivery stages are not entered. -/
theorem zero_signal_run (o : StageOutcomes) (c v : ℕ)
    (h1 : o.collect = .ok c) (h2 : o.cp1 = .ok ())
    (h3 : o.validate = .ok v) (h4 : o.cp2 = .ok ())
    (h5 : o.score = .ok []) (h6 : o.cp3 = .ok ()) :
    (run_full_pipeline o).completions = [⟨"completed", none, some 0⟩] ∧
    (run_full_pipeline o).returnStatus = "completed" ∧
    (run_full_pipeline o).stagesRun = ["collection", "validation", "scoring"] ∧
    "trends" ∉ (run_full_pipeline o).stagesRun ∧
    "composition" ∉ (run_full_pipeline o).stagesRun ∧
    "delivery" ∉ (run_full_pipeline o).stagesRun := by
  have hb : pipelineBody o =
      (["collection", "validation", "scoring"], .ok ⟨"completed", none, some 0⟩) := by
    unfold pipelineBody
    rw [h1, h2, h3, h4, h5, h6]
    simp
  refine ⟨?_, ?_, ?_, ?_, ?_, ?_⟩ <;> simp [run_full_pipeline, hb]

def zeroSignalOutcomes : StageOutcomes :=
  ⟨.ok 3, .ok (), .ok 2, .ok (), .ok [], .ok (), .ok 0, .ok (), .ok (), .ok (), .ok ()⟩

theorem zero_signal_run_witness :
    (run_full_pipeline zeroSignalOutcomes).completions = [⟨"completed", none, some 0⟩] ∧
    (run_full_pipeline zeroSignalOutcomes).returnStatus = "completed" :=
  ⟨(zero_signal_run zeroSignalOutcomes 3 2 rfl rfl rfl rfl rfl rfl).1,
   (zero_signal_run zeroSignalOutcomes 3 2 rfl rfl rfl rfl rfl rfl).2.1⟩

-- ── C2: composite score ──────────────────────────────────────────────

lemma halfEvenRound_le (q : ℚ) : (halfEvenRound q : ℚ) ≤ q + 1/2 := by
  have h0 : (⌊q⌋ : ℚ) ≤ q := Int.floor_le q
  have h1 : q < ⌊q⌋ + 1 := Int.lt_floor_add_one q
  simp only [halfEvenRound]
  split_ifs <;> push_cast <;> linarith

lemma le_halfEvenRound (q : ℚ) : q - 1/2 ≤ (halfEvenRound q : ℚ) := by
  have h0 : (⌊q⌋ : ℚ) ≤ q := Int.floor_le q
  have h1 : q < ⌊q⌋ + 1 := Int.lt_floor_add_one q
  simp only [halfEvenRound]
  split_ifs with ha hb <;> push_cast <;> [linarith; linarith; linarith; linarith]

lemma pyRoundTo2_mem (q : ℚ) (h1 : 1 ≤ q) (h2 : q ≤ 10) :
    1 ≤ pyRoundTo 2 q ∧ pyRoundTo 2 q ≤ 10 := by
  have e : pyRoundTo 2 q = (halfEvenRound (q * 100) : ℚ) / 100 := by
    unfold pyRoundTo
    norm_num
  have hu := halfEvenRound_le (q * 100)
  have hl := le_halfEvenRound (q * 100)
  have hn1 : (100 : ℚ) ≤ (halfEvenRound (q * 100) : ℚ) := by
    have h99 : (99 : ℤ) < halfEvenRound (q * 100) := by
      have hq : (99 : ℚ) < (halfEvenRound (q * 100) : ℚ) := by linarith
      exact_mod_cast hq
    have h100 : (100 : ℤ) ≤ halfEvenRound (q * 100) := h99
    exact_mod_cast h100
  have hn2 : ((halfEvenRound (q * 100) : ℚ)) ≤ 1000 := by
    have h1001 : halfEvenRound (q * 100) < (1001 : ℤ) := by
      have hq : (halfEvenRound (q * 100) : ℚ) < 1001 := by linarith
      exact_mod_cast hq
    have h1000 : halfEvenRound (q * 100) ≤ (1000 : ℤ) := by omega
    exact_mod_cast h1000
  rw [e]
  constructor
  · rw [le_div_iff₀ (by norm_num : (0:ℚ) < 100)]
    linarith
  · rw [div_le_iff₀ (by norm_num : (0:ℚ) < 100)]
    linarith

/-- C2 (amended): for a weight configuration with nonnegative weights
summing to 1.0 and the four dimension scores present with values in
[1,10], the composite equals the weighted sum rounded to 2 decimals and
lies in [1,10]. -/
theorem composite_weighted_sum_in_range (w : ScoringWeights)
    (scores : List (String × ℚ))
    (hw1 : 0 ≤ w.revenue_impact) (hw2 : 0 ≤ w.time_sensitivity)
    (hw3 : 0 ≤ w.strategic_alignment) (hw4 : 0 ≤ w.competitive_pressure)
    (hsum : w.revenue_impact + w.time_sensitivity + w.strategic_alignment +
      w.competitive_pressure = 1)
    (hs1 : 1 ≤ scoreGet scores "revenue_impact" ∧ scoreGet scores "revenue_impact" ≤ 10)
    (hs2 : 1 ≤ scoreGet scores "time_sensitivity" ∧ scoreGet scores "time_sensitivity" ≤ 10)
    (hs3 : 1 ≤ scoreGet scores "strategic_alignment" ∧
      scoreGet scores "strategic_alignment" ≤ 10)
    (hs4 : 1 ≤ scoreGet scores "competitive_pressure" ∧
      scoreGet scores "competitive_pressure" ≤ 10) :
    calculate_composite_score w scores =
      pyRoundTo 2 (w.revenue_impact * scoreGet scores "revenue_impact" +
        w.time_sensitivity * scoreGet scores "time_sensitivity" +
        w.strategic_alignment * scoreGet scores "strategic_alignment" +
        w.competitive_pressure * scoreGet scores "competitive_pressure") ∧
    1 ≤ calculate_composite_score w scores ∧
    calculate_composite_score w scores ≤ 10 := by
  have p1 : w.revenue_impact * 1 ≤ w.revenue_impact * scoreGet scores "revenue_impact" :=
    mul_le_mul_of_nonneg_left hs1.1 hw1
  have p2 : w.time_sensitivity * 1 ≤ w.time_sensitivity * scoreGet scores "time_sensitivity" :=
    mul_le_mul_of_nonneg_left hs2.1 hw2
  have p3 : w.strategic_alignment * 1 ≤
      w.strategic_alignment * scoreGet scores "strategic_alignment" :=
    mul_le_mul_of_nonneg_left hs3.1 hw3
  have p4 : w.competitive_pressure * 1 ≤
      w.competitive_pressure * scoreGet scores "competitive_pressure" :=
    mul_le_mul_of_nonneg_left hs4.1 hw4
  have q1 : w.revenue_impact * scoreGet scores "revenue_impact" ≤ w.revenue_impact * 10 :=
    mul_le_mul_of_nonneg_left hs1.2 hw1
  have q2 : w.time_sensitivity * scoreGet scores "time_sensitivity" ≤ w.time_sensitivity * 10 :=
    mul_le_mul_of_nonneg_left hs2.2 hw2
  have q3 : w.strategic_alignment * scoreGet scores "strategic_alignment" ≤
      w.strategic_alignment * 10 :=
    mul_le_mul_of_nonneg_left hs3.2 hw3
  have q4 : w.competitive_pressure * scoreGet scores "competitive_pressure" ≤
      w.competitive_pressure * 10 :=
    mul_le_mul_of_nonneg_left hs4.2 hw4
  have hS1 : 1 ≤ w.revenue_impact * scoreGet scores "revenue_impact" +
      w.time_sensitivity * scoreGet scores "time_sensitivity" +
      w.strategic_alignment * scoreGet scores "strategic_alignment" +
      w.competitive_pressure * scoreGet scores "competitive_pressure" := by
    nlinarith [p1, p2, p3, p4]
  have hS2 : w.revenue_impact * scoreGet scores "revenue_impact" +
      w.time_sensitivity * scoreGet scores "time_sensitivity" +
      w.strategic_alignment * scoreGet scores "strategic_alignment" +
      w.competitive_pressure * scoreGet scores "competitive_pressure" ≤ 10 := by
    nlinarith [q1, q2, q3, q4]
  have hb := pyRoundTo2_mem _ hS1 hS2
  exact ⟨rfl, hb.1, hb.2⟩

/-- A weight configuration summing to 1.0 with a negative entry. -/
def negWeights : ScoringWeights := ⟨3/2, -(1/2), 0, 0⟩

/-- Dimension scores all inside [1,10]. -/
def negWeightScores : List (String × ℚ) :=
  [("revenue_impact", 10), ("time_sensitivity", 1),
   ("strategic_alignment", 1), ("competitive_pressure", 1)]

/-- C2 counterexample: the claim quantifies over every weight configuration
whose weights sum to 1.0; with a negative weight the composite leaves
[1,10] (here 14.5), so nonnegativity is required. -/
theorem composite_out_of_range_with_sum_one :
    negWeights.revenue_impact + negWeights.time_sensitivity +
      negWeights.strategic_alignment + negWeights.competitive_pressure = 1 ∧
    (∀ p ∈ negWeightScores, 1 ≤ p.2 ∧ p.2 ≤ 10) ∧
    calculate_composite_score negWeights negWeightScores = 29/2 ∧
    ¬ calculate_composite_score negWeights negWeightScores ≤ 10 := by
  have h0 : calculate_composite_score negWeights negWeightScores =
      pyRoundTo 2 (3/2 * 10 + -(1/2) * 1 + 0 * 1 + 0 * 1) := rfl
  have hc : calculate_composite_score negWeights negWeightScores = 29/2 := by
    rw [h0]
    have harg : (3/2 : ℚ) * 10 + -(1/2) * 1 + 0 * 1 + 0 * 1 = 29/2 := by norm_num
    rw [harg]
    unfold pyRoundTo halfEvenRound
    norm_num
  refine ⟨by norm_num [negWeights], by decide, hc, by rw [hc]; norm_num⟩

-- ── C1 / C3: crash on malformed relevant_bus elements ────────────────

/-- A configuration whose content is irrelevant to the failing paths. -/
def plainCfg : Config := ⟨⟨35/100, 25/100, 25/100, 15/100⟩, ⟨4, 25⟩, []⟩

/-- A parsed remote response whose `relevant_bus` is a non-empty list with
a non-dict element — well-formed JSON that passes the emptiness check. -/
def malformedBusResult : JVal := .obj [("relevant_bus", .arr [.num 1])]

def crashClientSingle : Client := ⟨true, fun _ => some malformedBusResult, fun _ => none⟩

def crashClientBatch : Client :=
  ⟨true, fun _ => none, fun _ => some (.arr [malformedBusResult])⟩

def someSignal : Signal := ⟨1, "Example signal", "Example summary"⟩

/-- C1 failing input: with the remote response `{"relevant_bus": [1]}`,
`_validate_ai_result` hits `bu_match.get` on an int and raises
`AttributeError`, which propagates out of `score_signal` — scoring aborts
instead of degrading to the heuristic path. -/
theorem score_signal_raises_on_malformed_bus_element :
    score_signal plainCfg crashClientSingle someSignal = .error "AttributeError" := rfl

/-- C3 failing input: a batch response of the right length whose only
element has `relevant_bus = [1]` makes `_validate_ai_result` raise inside
the batch loop, so `score_batch_ai` raises instead of returning a
length-1 list. -/
theorem score_batch_ai_raises_on_malformed_element :
    score_batch_ai plainCfg crashClientBatch [someSignal] = .error "AttributeError" := rfl

-- ── C4: validation rejection condition ───────────────────────────────

/-- The claim's rejection condition, in the spec's words: the
`relevant_bus` field is empty, missing, or not a list. -/
def busEmptyMissingOrNonList (kvs : List (String × JVal)) : Bool :=
  match kvs.lookup "relevant_bus" with
  | none => true
  | some (.arr l) => l.isEmpty
  | some _ => true

lemma bus_cond_eq (kvs : List (String × JVal)) :
    (!(getD kvs "relevant_bus" (.arr [])).isTruthy ||
      !(getD kvs "relevant_bus" (.arr [])).isArr) = busEmptyMissingOrNonList kvs := by
  unfold busEmptyMissingOrNonList getD
  cases h : kvs.lookup "relevant_bus" with
  | none => rfl
  | some v => cases v <;> simp [JVal.isTruthy, JVal.isArr]

lemma getD_validate_kvs1 (kvs : List (String × JVal)) (k : String) (d : JVal)
    (h : k ≠ "signal_type") :
    getD (if isValidSignalType (getD kvs "signal_type" (.str "")) then kvs
          else setK kvs "signal_type" (.str "market-shift")) k d = getD kvs k d := by
  split
  · rfl
  · exact getD_setK_ne _ _ _ _ _ h

/-- C4: on a dict input, `_validate_ai_result` returns `None` iff
`relevant_bus` is empty, missing, or not a list; an unrecognized
`signal_type` never causes rejection — it is coerced to "market-shift"
and an accepted result carries that default. -/
theorem validate_rejects_iff_bus_invalid (kvs : List (String × JVal)) :
    (validate_ai_result (.obj kvs) = .ok none ↔ busEmptyMissingOrNonList kvs = true) ∧
    (∀ r, isValidSignalType (getD kvs "signal_type" (.str "")) = false →
      validate_ai_result (.obj kvs) = .ok (some r) →
      ∃ rkvs, r = .obj rkvs ∧ rkvs.lookup "signal_type" = some (.str "market-shift")) := by
  by_cases hbc : busEmptyMissingOrNonList kvs = true
  · have hval : validate_ai_result (.obj kvs) = .ok none := by
      simp only [validate_ai_result]
      rw [getD_validate_kvs1 kvs "relevant_bus" (.arr []) (by decide),
        bus_cond_eq kvs, hbc]
      simp
    refine ⟨iff_of_true hval hbc, ?_⟩
    intro r _ hok
    rw [hval] at hok
    simp at hok
  · have hbcf : busEmptyMissingOrNonList kvs = false := by
      revert hbc
      cases busEmptyMissingOrNonList kvs <;> simp
    simp only [validate_ai_result]
    rw [getD_validate_kvs1 kvs "relevant_bus" (.arr []) (by decide),
      bus_cond_eq kvs, hbcf]
    rw [if_neg (by simp)]
    cases hm : mapM normalizeBuMatch
        (match getD kvs "relevant_bus" (JVal.arr []) with
         | JVal.arr xs => xs
         | _ => []) with
    | error e =>
      simp only [hm]
      exact ⟨by simp [hbcf], by intro r _ hok; simp at hok⟩
    | ok items1 =>
      simp only [hm]
      rw [getD_setK_ne _ _ _ _ _ (by decide : ("scores":String) ≠ "relevant_bus"),
        getD_validate_kvs1 kvs "scores" (.obj []) (by decide)]
      cases hsc : getD kvs "scores" (JVal.obj []) with
      | obj skvs =>
        simp only [hsc]
        cases hf : List.foldlM normalizeDim skvs required_dims with
        | error e =>
          simp only [hf]
          exact ⟨by simp [hbcf], by intro r _ hok; simp at hok⟩
        | ok skvs1 =>
          simp only [hf]
          refine ⟨by simp [hbcf], ?_⟩
          intro r hty hok
          simp only [Except.ok.injEq, Option.some.injEq] at hok
          simp only [hty, Bool.false_eq_true, if_false] at hok
          refine ⟨_, hok.symm, ?_⟩
          rw [lookup_setDefault_ne _ _ _ _ (by decide)]
          split
          · rw [lookup_setK_ne _ _ _ _ (by decide),
              lookup_setDefault_ne _ _ _ _ (by decide),
              lookup_setDefault_ne _ _ _ _ (by decide),
              lookup_setDefault_ne _ _ _ _ (by decide),
              lookup_setDefault_ne _ _ _ _ (by decide),
              lookup_setDefault_ne _ _ _ _ (by decide),
              lookup_setK_ne _ _ _ _ (by decide),
              lookup_setK_ne _ _ _ _ (by decide)]
            exact lookup_setK_self _ _ _
          · rw [lookup_setDefault_ne _ _ _ _ (by decide),
              lookup_setDefault_ne _ _ _ _ (by decide),
              lookup_setDefault_ne _ _ _ _ (by decide),
              lookup_setDefault_ne _ _ _ _ (by decide),
              lookup_setDefault_ne _ _ _ _ (by decide),
              lookup_setK_ne _ _ _ _ (by decide),
              lookup_setK_ne _ _ _ _ (by decide)]
            exact lookup_setK_self _ _ _
      | null =>
        simp only [hsc]
        exact ⟨by simp [hbcf], by intro r _ hok; simp at hok⟩
      | bool b =>
        simp only [hsc]
        exact ⟨by simp [hbcf], by intro r _ hok; simp at hok⟩
      | num q =>
        simp only [hsc]
        exact ⟨by simp [hbcf], by intro r _ hok; simp at hok⟩
      | str s =>
        simp only [hsc]
        exact ⟨by simp [hbcf], by intro r _ hok; simp at hok⟩
      | arr xs =>
        simp only [hsc]
        exact ⟨by simp [hbcf], by intro r _ hok; simp at hok⟩

/-- Input dict for the C4 witness: unrecognized (missing) signal type and a
valid one-element `relevant_bus`. -/
def c4Kvs : List (String × JVal) :=
  [("relevant_bus", .arr [.obj [("bu_id", .str "a")]])]

/-- The clamped default relevance score `max(0.0, min(1.0, float(0.5)))`. -/
def c4Rel : ℚ := clampQ 0 1 (1/2)

/-- The normalized default dimension score `max(1, min(10, int(round(5))))`. -/
def c4Dim : ℚ := ((max 1 (min 10 (halfEvenRound 5)) : ℤ) : ℚ)

/-- The validated result for `c4Kvs`. -/
def c4Result : List (String × JVal) :=
  [("relevant_bus", .arr [.obj [("bu_id", .str "a"), ("relevance_score", .num c4Rel)]]),
   ("signal_type", .str "market-shift"),
   ("scores", .obj [("revenue_impact", .num c4Dim), ("time_sensitivity", .num c4Dim),
                    ("strategic_alignment", .num c4Dim), ("competitive_pressure", .num c4Dim)]),
   ("headline", .str "Industry Signal Detected"),
   ("what_summary", .str "Signal details pending review."),
   ("why_it_matters", .str "Relevance assessment in progress."),
   ("quick_win", .str "Review signal and assess BU impact."),
   ("suggested_owner", .str "BU Manager"),
   ("estimated_impact", .str (impactTier c4Dim)),
   ("outreach_template", .null)]

theorem validate_rejects_iff_bus_invalid_witness :
    c4Result.lookup "signal_type" = some (JVal.str "market-shift") := by
  obtain ⟨rkvs, hr, hl⟩ :=
    (validate_rejects_iff_bus_invalid c4Kvs).2 (.obj c4Result) rfl rfl
  injection hr with h
  rw [h]
  exact hl

-- ── C6: non-empty category matches for persisted AI analyses ─────────

/-- The `analysis_method` field of an analysis dict. -/
def analysisMethod (a : JVal) : JVal :=
  match a with
  | .obj kvs => getD kvs "analysis_method" .null
  | _ => .null

/-- The `bu_matches` field of an analysis dict. -/
def analysisBuMatches (a : JVal) : JVal :=
  match a with
  | .obj kvs => getD kvs "bu_matches" .null
  | _ => .null

lemma bus_of_pred_false (kvs : List (String × JVal))
    (h : busEmptyMissingOrNonList kvs = false) :
    ∃ items, getD kvs "relevant_bus" (.arr []) = .arr items ∧ items ≠ [] := by
  unfold busEmptyMissingOrNonList at h
  unfold getD
  cases hl : kvs.lookup "relevant_bus" with
  | none => rw [hl] at h; simp at h
  | some v =>
    rw [hl] at h
    cases v <;> simp_all

lemma validate_ok_some_shape (raw r : JVal)
    (h : validate_ai_result raw = .ok (some r)) :
    ∃ rkvs l, r = .obj rkvs ∧ rkvs.lookup "relevant_bus" = some (.arr l) ∧ l ≠ [] := by
  cases raw with
  | obj kvs =>
    by_cases hbc : busEmptyMissingOrNonList kvs = true
    · have hval : validate_ai_result (.obj kvs) = .ok none := by
        simp only [validate_ai_result]
        rw [getD_validate_kvs1 kvs "relevant_bus" (.arr []) (by decide),
          bus_cond_eq kvs, hbc]
        simp
      rw [hval] at h
      simp at h
    · have hbcf : busEmptyMissingOrNonList kvs = false := by
        revert hbc
        cases busEmptyMissingOrNonList kvs <;> simp
      obtain ⟨items, hitems, hne⟩ := bus_of_pred_false kvs hbcf
      simp only [validate_ai_result] at h
      rw [getD_validate_kvs1 kvs "relevant_bus" (.arr []) (by decide),
        bus_cond_eq kvs, hbcf] at h
      rw [if_neg (by simp)] at h
      rw [hitems] at h
      cases hm : mapM normalizeBuMatch items with
      | error e => rw [hm] at h; simp at h
      | ok items1 =>
        simp only [hm] at h
        rw [getD_setK_ne _ _ _ _ _ (by decide : ("scores":String) ≠ "relevant_bus"),
          getD_validate_kvs1 kvs "scores" (.obj []) (by decide)] at h
        cases hsc : getD kvs "scores" (JVal.obj []) with
        | obj skvs =>
          simp only [hsc] at h
          cases hf : List.foldlM normalizeDim skvs required_dims with
          | error e => rw [hf] at h; simp at h
          | ok skvs1 =>
            simp only [hf] at h
            simp only [Except.ok.injEq, Option.some.injEq] at h
            refine ⟨_, items1, h.symm, ?_, ?_⟩
            · rw [lookup_setDefault_ne _ _ _ _ (by decide)]
              set base := (if isValidSignalType (getD kvs "signal_type" (JVal.str "")) = true
                then kvs else setK kvs "signal_type" (JVal.str "market-shift")) with hbase
              split
              · rw [lookup_setK_ne _ _ _ _ (by decide),
                  lookup_setDefault_ne _ _ _ _ (by decide),
                  lookup_setDefault_ne _ _ _ _ (by decide),
                  lookup_setDefault_ne _ _ _ _ (by decide),
                  lookup_setDefault_ne _ _ _ _ (by decide),
                  lookup_setDefault_ne _ _ _ _ (by decide),
                  lookup_setK_ne _ _ _ _ (by decide)]
                exact lookup_setK_self _ _ _
              · rw [lookup_setDefault_ne _ _ _ _ (by decide),
                  lookup_setDefault_ne _ _ _ _ (by decide),
                  lookup_setDefault_ne _ _ _ _ (by decide),
                  lookup_setDefault_ne _ _ _ _ (by decide),
                  lookup_setDefault_ne _ _ _ _ (by decide),
                  lookup_setK_ne _ _ _ _ (by decide)]
                exact lookup_setK_self _ _ _
            · intro hnil
              subst hnil
              have hlen := except_mapM_length normalizeBuMatch items [] hm
              simp at hlen
              exact hne (List.length_eq_zero.mp hlen.symm)
        | null => simp only [hsc] at h; simp at h
        | bool b => simp only [hsc] at h; simp at h
        | num q => simp only [hsc] at h; simp at h
        | str s => simp only [hsc] at h; simp at h
        | arr xs => simp only [hsc] at h; simp at h
  | null => simp [validate_ai_result] at h
  | bool b => simp [validate_ai_result] at h
  | num q => simp [validate_ai_result] at h
  | str s => simp [validate_ai_result] at h
  | arr xs => simp [validate_ai_result] at h

lemma score_signal_ai_ok_some (cfg : Config) (client : Client) (signal : Signal)
    (r : JVal) (h : score_signal_ai cfg client signal = .ok (some r)) :
    analysisMethod r = .str "ai" ∧ ∃ l, analysisBuMatches r = .arr l ∧ l ≠ [] := by
  unfold score_signal_ai at h
  cases hav : client.available with
  | false => rw [hav] at h; simp at h
  | true =>
    rw [hav] at h
    simp only [Bool.not_true, Bool.false_eq_true, if_false] at h
    cases hcs : client.single signal with
    | none => rw [hcs] at h; simp at h
    | some raw =>
      simp only [hcs] at h
      cases hv : validate_ai_result raw with
      | error e => rw [hv] at h; simp at h
      | ok vo =>
        cases vo with
        | none => rw [hv] at h; simp at h
        | some result =>
          obtain ⟨rkvs, l, hres, hlook, hlne⟩ := validate_ok_some_shape raw result hv
          subst hres
          simp only [hv] at h
          cases hsi : jIndex rkvs "scores" with
          | error e => rw [hsi] at h; simp at h
          | ok scoresJ =>
            simp only [hsi] at h
            have hbj : jIndex (setK rkvs "composite"
                (.num (calculate_composite_score cfg.weights (scoresToQ scoresJ))))
                "relevant_bus" = .ok (.arr l) := by
              unfold jIndex
              rw [lookup_setK_ne _ _ _ _ (by decide), hlook]
            simp only [hbj] at h
            cases hbm : mapM buMatchEntry l with
            | error e => rw [hbm] at h; simp at h
            | ok bms =>
              simp only [hbm] at h
              simp only [Except.ok.injEq, Option.some.injEq] at h
              subst h
              constructor
              · show getD _ "analysis_method" .null = _
                unfold getD
                rw [lookup_setK_self]
              · refine ⟨bms, ?_, ?_⟩
                · show getD _ "bu_matches" .null = _
                  unfold getD
                  rw [lookup_setK_ne _ _ _ _ (by decide), lookup_setK_self]
                · intro hnil
                  subst hnil
                  have hlen := except_mapM_length buMatchEntry l [] hbm
                  simp at hlen
                  exact hlne (List.length_eq_zero.mp hlen.symm)

lemma heuristic_method (cfg : Config) (s : Signal) :
    analysisMethod (score_signal_heuristic cfg s) = .str "heuristic" := rfl

lemma score_signal_ok (cfg : Config) (client : Client) (signal : Signal)
    (r : JVal) (h : score_signal cfg client signal = .ok r) :
    ((analysisMethod r = .str "ai" ∨ analysisMethod r = .str "ai-batch") →
      ∃ l, analysisBuMatches r = .arr l ∧ l ≠ []) ∧
    analysisMethod r ≠ .str "ai-batch" := by
  unfold score_signal at h
  cases hai : score_signal_ai cfg client signal with
  | error e => rw [hai] at h; simp at h
  | ok vo =>
    cases vo with
    | some r' =>
      rw [hai] at h
      simp only [Except.ok.injEq] at h
      subst h
      obtain ⟨hm, hbu⟩ := score_signal_ai_ok_some cfg client signal r' hai
      exact ⟨fun _ => hbu, by rw [hm]; simp⟩
    | none =>
      rw [hai] at h
      simp only [Except.ok.injEq] at h
      subst h
      rw [heuristic_method]
      exact ⟨by intro hc; rcases hc with hc | hc <;> simp at hc, by simp⟩

lemma enrichBatchResult_ok (cfg : Config) (v r : JVal)
    (hv : ∃ vk l, v = .obj vk ∧ vk.lookup "relevant_bus" = some (.arr l) ∧ l ≠ [])
    (h : enrichBatchResult cfg v = .ok r) :
    analysisMethod r = .str "ai-batch" ∧ ∃ l, analysisBuMatches r = .arr l ∧ l ≠ [] := by
  obtain ⟨vk, l, rfl, hlook, hlne⟩ := hv
  simp only [enrichBatchResult] at h
  cases hsi : jIndex vk "scores" with
  | error e => rw [hsi] at h; simp at h
  | ok scoresJ =>
    simp only [hsi] at h
    have hbj : getD (setK vk "composite"
        (.num (calculate_composite_score cfg.weights (scoresToQ scoresJ))))
        "relevant_bus" (.arr []) = .arr l := by
      unfold getD
      rw [lookup_setK_ne _ _ _ _ (by decide), hlook]
    simp only [hbj] at h
    cases hbm : mapM buMatchEntry l with
    | error e => rw [hbm] at h; simp at h
    | ok bms =>
      simp only [hbm] at h
      simp only [Except.ok.injEq] at h
      subst h
      constructor
      · show getD _ "analysis_method" .null = _
        unfold getD
        rw [lookup_setK_self]
      · refine ⟨bms, ?_, ?_⟩
        · show getD _ "bu_matches" .null = _
          unfold getD
          rw [lookup_setK_ne _ _ _ _ (by decide), lookup_setK_self]
        · intro hnil
          subst hnil
          have hlen := except_mapM_length buMatchEntry l [] hbm
          simp at hlen
          exact hlne (List.length_eq_zero.mp hlen.symm)

lemma except_mapM_mem {α β : Type} (f : α → Except String β) :
    ∀ (l : List α) (ys : List β), l.mapM f = .ok ys →
      ∀ y ∈ ys, ∃ x ∈ l, f x = .ok y := by
  intro l
  induction l with
  | nil =>
    intro ys h y hy
    rw [List.mapM_nil, except_pure_eq] at h
    cases h
    cases hy
  | cons x xs ih =>
    intro ys h y hy
    rw [List.mapM_cons] at h
    cases hx : f x with
    | error e => rw [hx, except_bind_error] at h; cases h
    | ok y0 =>
      rw [hx, except_bind_ok] at h
      cases hxs : List.mapM f xs with
      | error e => rw [hxs, except_bind_error] at h; cases h
      | ok ys' =>
        rw [hxs, except_bind_ok, except_pure_eq] at h
        cases h
        rcases List.mem_cons.mp hy with rfl | hy'
        · exact ⟨x, List.mem_cons_self x xs, hx⟩
        · obtain ⟨x', hx', hfx'⟩ := ih ys' hxs y hy'
          exact ⟨x', List.mem_cons_of_mem x hx', hfx'⟩

lemma score_batch_ai_good (cfg : Config) (client : Client) (signals : List Signal)
    (results : List JVal) (h : score_batch_ai cfg client signals = .ok results) :
    ∀ r ∈ results,
      (analysisMethod r = .str "ai" ∨ analysisMethod r = .str "ai-batch") →
      ∃ l, analysisBuMatches r = .arr l ∧ l ≠ [] := by
  unfold score_batch_ai at h
  split at h
  · simp only [Except.ok.injEq] at h
    subst h
    intro r hr hmr
    obtain ⟨s, _, rfl⟩ := List.mem_map.mp hr
    rw [heuristic_method] at hmr
    rcases hmr with hc | hc <;> simp at hc
  · split at h
    · intro r hr hmr
      obtain ⟨s, _, hfs⟩ := except_mapM_mem _ _ _ h r hr
      exact (score_signal_ok cfg client s r hfs).1 hmr
    · rename_i raw
      split at h
      · split at h
        · intro r hr hmr
          obtain ⟨p, _, hfp⟩ := except_mapM_mem _ _ _ h r hr
          revert hfp
          cases hvp : validate_ai_result p.2 with
          | error e => intro hfp; cases hfp
          | ok vo =>
            cases vo with
            | none =>
              intro hfp
              exact (score_signal_ok cfg client p.1 r hfp).1 hmr
            | some validated =>
              intro hfp
              have hsh := validate_ok_some_shape p.2 validated hvp
              obtain ⟨vk, l, hvk, hlk, hln⟩ := hsh
              exact (enrichBatchResult_ok cfg validated r ⟨vk, l, hvk, hlk, hln⟩ hfp).2
        · intro r hr hmr
          obtain ⟨s, _, hfs⟩ := except_mapM_mem _ _ _ h r hr
          exact (score_signal_ok cfg client s r hfs).1 hmr
      · intro r hr hmr
        obtain ⟨s, _, hfs⟩ := except_mapM_mem _ _ _ h r hr
        exact (score_signal_ok cfg client s r hfs).1 hmr

lemma scoreBatchStep_good (cfg : Config) (client : Client)
    (acc : List (Signal × JVal)) (batch : List Signal) (acc2 : List (Signal × JVal))
    (h : scoreBatchStep cfg client acc batch = .ok acc2)
    (hacc : ∀ p ∈ acc,
      (analysisMethod p.2 = .str "ai" ∨ analysisMethod p.2 = .str "ai-batch") →
      ∃ l, analysisBuMatches p.2 = .arr l ∧ l ≠ []) :
    ∀ p ∈ acc2,
      (analysisMethod p.2 = .str "ai" ∨ analysisMethod p.2 = .str "ai-batch") →
      ∃ l, analysisBuMatches p.2 = .arr l ∧ l ≠ [] := by
  unfold scoreBatchStep at h
  by_cases hcond : (client.available && decide (1 < batch.length)) = true
  · rw [if_pos hcond] at h
    cases hres : score_batch_ai cfg client batch with
    | error e => rw [hres] at h; cases h
    | ok results =>
      rw [hres] at h
      simp only [Except.ok.injEq] at h
      subst h
      intro p hp hmp
      rcases List.mem_append.mp hp with hpa | hpz
      · exact hacc p hpa hmp
      · have hmem := (List.of_mem_zip hpz).2
        exact score_batch_ai_good cfg client batch results hres p.2 hmem hmp
  · rw [if_neg hcond] at h
    cases hres : batch.mapM (score_signal cfg client) with
    | error e => rw [hres] at h; cases h
    | ok results =>
      rw [hres] at h
      simp only [Except.ok.injEq] at h
      subst h
      intro p hp hmp
      rcases List.mem_append.mp hp with hpa | hpz
      · exact hacc p hpa hmp
      · have hmem := (List.of_mem_zip hpz).2
        obtain ⟨s, _, hfs⟩ := except_mapM_mem _ _ _ hres p.2 hmem
        exact (score_signal_ok cfg client s p.2 hfs).1 hmp

lemma foldlM_scoreBatchStep_good (cfg : Config) (client : Client) :
    ∀ (batches : List (List Signal)) (acc pairs : List (Signal × JVal)),
      List.foldlM (scoreBatchStep cfg client) acc batches = .ok pairs →
      (∀ p ∈ acc,
        (analysisMethod p.2 = .str "ai" ∨ analysisMethod p.2 = .str "ai-batch") →
        ∃ l, analysisBuMatches p.2 = .arr l ∧ l ≠ []) →
      ∀ p ∈ pairs,
        (analysisMethod p.2 = .str "ai" ∨ analysisMethod p.2 = .str "ai-batch") →
        ∃ l, analysisBuMatches p.2 = .arr l ∧ l ≠ [] := by
  intro batches
  induction batches with
  | nil =>
    intro acc pairs h hacc
    rw [List.foldlM_nil] at h
    cases h
    exact hacc
  | cons b bs ih =>
    intro acc pairs h hacc
    rw [List.foldlM_cons] at h
    cases hstep : scoreBatchStep cfg client acc b with
    | error e => rw [hstep, except_bind_error] at h; cases h
    | ok acc2 =>
      rw [hstep, except_bind_ok] at h
      exact ih acc2 pairs h (scoreBatchStep_good cfg client acc b acc2 hstep hacc)

/-- C6 (amended): every analysis persisted by `stage_score` that was
produced by the AI path (`analysis_method` "ai" or "ai-batch") has a
non-empty `bu_matches` list — an AI result with empty `relevant_bus` is
discarded by validation before persistence. The heuristic path, however,
persists its analysis even when its `bu_matches` list is empty (see the
counterexample). -/
theorem ai_analyses_persist_nonempty_bus (cfg : Config) (client : Client)
    (validated : List Signal) (res : StageScoreResult)
    (h : stage_score cfg client validated = .ok res) :
    ∀ p ∈ res.persisted,
      (analysisMethod p.2 = .str "ai" ∨ analysisMethod p.2 = .str "ai-batch") →
      ∃ l, analysisBuMatches p.2 = .arr l ∧ l ≠ [] := by
  unfold stage_score at h
  split at h
  · simp only [Except.ok.injEq] at h
    subst h
    intro p hp
    cases hp
  · cases hf : List.foldlM (scoreBatchStep cfg client) [] (chunkList AI_BATCH_SIZE validated) with
    | error e => rw [hf] at h; cases h
    | ok pairs =>
      rw [hf] at h
      simp only [Except.ok.injEq] at h
      subst h
      intro p hp hmp
      obtain ⟨q, hq, hpq⟩ := List.mem_map.mp hp
      have hq2 : q.2 = p.2 := by rw [← hpq]
      rw [← hq2] at hmp ⊢
      exact foldlM_scoreBatchStep_good cfg client (chunkList AI_BATCH_SIZE validated)
        [] pairs hf (by intro p hp; cases hp) q hq hmp

/-- Config for the C6 counterexample: one business unit that is inactive,
real default weights and thresholds. -/
def cfgHeu : Config :=
  ⟨⟨35/100, 25/100, 25/100, 15/100⟩, ⟨4, 25⟩,
   [⟨"vpg-force-sensors", "VPG Force Sensors", false, ["sensor"], [], []⟩]⟩

/-- Client with no API key: `available = False`, heuristic fallback. -/
def offlineClient : Client := ⟨false, fun _ => none, fun _ => none⟩

/-- A signal matching no business unit. -/
def weatherSignal : Signal :=
  ⟨7, "Weather forecast for next week", "Sunny skies expected across the region"⟩

/-- The observable `stage_score` outcome for that run (the digest component
is carried symbolically; only `persisted` matters for the claim). -/
def heuRunResult : StageScoreResult :=
  ⟨[(7, score_signal_heuristic cfgHeu weatherSignal)],
   (sortByDesc (fun p => compositeOf p.2)
     (List.filter (fun p => decide (cfgHeu.thresholds.include_in_digest ≤ compositeOf p.2))
       [(weatherSignal, score_signal_heuristic cfgHeu weatherSignal)])).take
     cfgHeu.thresholds.max_signals_per_digest⟩

/-- C6 counterexample: the heuristic path persists an analysis whose
`bu_matches` list is empty — `stage_score` calls `insert_analysis` for
every scored signal regardless of its matches, so the claim that no
persisted Analysis has an empty category-match list fails on the
heuristic path. -/
theorem heuristic_empty_bus_persisted :
    stage_score cfgHeu offlineClient [weatherSignal] = .ok heuRunResult ∧
    heuRunResult.persisted = [(7, score_signal_heuristic cfgHeu weatherSignal)] ∧
    analysisBuMatches (score_signal_heuristic cfgHeu weatherSignal) = .arr [] ∧
    analysisMethod (score_signal_heuristic cfgHeu weatherSignal) = .str "heuristic" :=
  ⟨rfl, rfl, rfl, rfl⟩

/-- Config for the C6 witness run. -/
def cfgAi : Config := ⟨⟨1, 0, 0, 0⟩, ⟨4, 25⟩, []⟩

/-- A well-formed remote analysis response. -/
def aiResp : JVal :=
  .obj [("signal_type", .str "competitive-threat"),
        ("relevant_bus", .arr [.obj [("bu_id", .str "b1"), ("relevance_score", .num (9/10))]]),
        ("scores", .obj [("revenue_impact", .num 8), ("time_sensitivity", .num 7),
                         ("strategic_alignment", .num 6), ("competitive_pressure", .num 5)]),
        ("headline", .str "H"), ("what_summary", .str "W"), ("why_it_matters", .str "Y"),
        ("quick_win", .str "Q"), ("suggested_owner", .str "O"),
        ("estimated_impact", .str "E"), ("outreach_template", .null)]

def onlineClient : Client := ⟨true, fun _ => some aiResp, fun _ => none⟩

def aiSig : Signal := ⟨42, "t", "s"⟩

/-- The clamped relevance and normalized dimension scores of `aiResp`,
carried symbolically. -/
def aiRel : ℚ := clampQ 0 1 (9/10)

def aiDim (n : ℚ) : ℚ := ((max 1 (min 10 (halfEvenRound n)) : ℤ) : ℚ)

def aiComp : ℚ :=
  calculate_composite_score cfgAi.weights (scoresToQ (JVal.obj
    [("revenue_impact", .num (aiDim 8)), ("time_sensitivity", .num (aiDim 7)),
     ("strategic_alignment", .num (aiDim 6)), ("competitive_pressure", .num (aiDim 5))]))

/-- The analysis `score_signal` produces for `aiSig` under `onlineClient`. -/
def aiAnalysis : JVal :=
  .obj [("signal_type", .str "competitive-threat"),
        ("relevant_bus", .arr [.obj [("bu_id", .str "b1"), ("relevance_score", .num aiRel)]]),
        ("scores", .obj [("revenue_impact", .num (aiDim 8)), ("time_sensitivity", .num (aiDim 7)),
                         ("strategic_alignment", .num (aiDim 6)),
                         ("competitive_pressure", .num (aiDim 5))]),
        ("headline", .str "H"), ("what_summary", .str "W"), ("why_it_matters", .str "Y"),
        ("quick_win", .str "Q"), ("suggested_owner", .str "O"),
        ("estimated_impact", .str "E"), ("outreach_template", .null),
        ("composite", .num aiComp),
        ("bu_matches", .arr [.obj [("bu_id", .str "b1"), ("relevance_score", .num aiRel)]]),
        ("analysis_method", .str "ai")]

def aiRunResult : StageScoreResult :=
  ⟨[(42, aiAnalysis)],
   (sortByDesc (fun p => compositeOf p.2)
     (List.filter (fun p => decide (cfgAi.thresholds.include_in_digest ≤ compositeOf p.2))
       [(aiSig, aiAnalysis)])).take cfgAi.thresholds.max_signals_per_digest⟩

theorem ai_analyses_persist_nonempty_bus_witness :
    (analysisBuMatches aiAnalysis).isTruthy = true := by
  obtain ⟨l, hl, hne⟩ := ai_analyses_persist_nonempty_bus cfgAi onlineClient [aiSig]
    aiRunResult rfl (42, aiAnalysis) (by simp [aiRunResult]) (Or.inl rfl)
  rw [hl]
  simp only [JVal.isTruthy, Bool.not_eq_true']
  exact List.isEmpty_eq_false.mpr hne

-- ── C8: threshold gating, sorting and capping ────────────────────────

lemma score_batch_ai_length (cfg : Config) (client : Client)
    (signals : List Signal) (results : List JVal)
    (h : score_batch_ai cfg client signals = .ok results) :
    results.length = signals.length := by
  unfold score_batch_ai at h
  split at h
  · simp only [Except.ok.injEq] at h
    subst h
    simp
  · split at h
    · exact except_mapM_length _ _ _ h
    · rename_i raw
      split at h
      · rename_i items
        split at h
        · rename_i hlen
          have hz := except_mapM_length _ _ _ h
          rw [hz, List.length_zip, hlen]
          exact Nat.min_self _
        · exact except_mapM_length _ _ _ h
      · exact except_mapM_length _ _ _ h

lemma scoreBatchStep_fst (cfg : Config) (client : Client)
    (acc : List (Signal × JVal)) (batch : List Signal) (acc2 : List (Signal × JVal))
    (h : scoreBatchStep cfg client acc batch = .ok acc2) :
    acc2.map Prod.fst = acc.map Prod.fst ++ batch := by
  unfold scoreBatchStep at h
  by_cases hcond : (client.available && decide (1 < batch.length)) = true
  · rw [if_pos hcond] at h
    cases hres : score_batch_ai cfg client batch with
    | error e => rw [hres] at h; cases h
    | ok results =>
      rw [hres] at h
      simp only [Except.ok.injEq] at h
      subst h
      rw [List.map_append, List.map_fst_zip]
      rw [score_batch_ai_length cfg client batch results hres]
  · rw [if_neg hcond] at h
    cases hres : batch.mapM (score_signal cfg client) with
    | error e => rw [hres] at h; cases h
    | ok results =>
      rw [hres] at h
      simp only [Except.ok.injEq] at h
      subst h
      rw [List.map_append, List.map_fst_zip]
      rw [except_mapM_length _ _ _ hres]

lemma foldlM_scoreBatchStep_fst (cfg : Config) (client : Client) :
    ∀ (batches : List (List Signal)) (acc pairs : List (Signal × JVal)),
      List.foldlM (scoreBatchStep cfg client) acc batches = .ok pairs →
      pairs.map Prod.fst = acc.map Prod.fst ++ batches.flatten := by
  intro batches
  induction batches with
  | nil =>
    intro acc pairs h
    rw [List.foldlM_nil] at h
    cases h
    simp
  | cons b bs ih =>
    intro acc pairs h
    rw [List.foldlM_cons] at h
    cases hstep : scoreBatchStep cfg client acc b with
    | error e => rw [hstep, except_bind_error] at h; cases h
    | ok acc2 =>
      rw [hstep, except_bind_ok] at h
      rw [ih acc2 pairs h, scoreBatchStep_fst cfg client acc b acc2 hstep]
      simp [List.flatten_cons]

/-- C8: every scored signal's analysis is persisted regardless of its
composite (one `insert_analysis` per validated signal, in order); the
digest set is the threshold-filtered pairs, stably sorted by composite
descending and truncated to the configured maximum, keeping top scores. -/
theorem stage_score_gating (cfg : Config) (client : Client)
    (validated : List Signal) (res : StageScoreResult)
    (h : stage_score cfg client validated = .ok res) :
    res.persisted.map Prod.fst = validated.map Signal.id ∧
    ∃ pairs : List (Signal × JVal),
      pairs.map Prod.fst = validated ∧
      res.persisted = pairs.map (fun p => (p.1.id, p.2)) ∧
      res.digest = (sortByDesc (fun p => compositeOf p.2)
          (pairs.filter (fun p => cfg.thresholds.include_in_digest ≤ compositeOf p.2))).take
        cfg.thresholds.max_signals_per_digest ∧
      res.digest.length ≤ cfg.thresholds.max_signals_per_digest ∧
      res.digest.Pairwise (fun a b => compositeOf b.2 ≤ compositeOf a.2) ∧
      (∀ p ∈ res.digest,
        cfg.thresholds.include_in_digest ≤ compositeOf p.2 ∧
        (p.1.id, p.2) ∈ res.persisted) ∧
      (∀ a ∈ res.digest,
        ∀ b ∈ (sortByDesc (fun p => compositeOf p.2)
            (pairs.filter (fun p => cfg.thresholds.include_in_digest ≤ compositeOf p.2))).drop
          cfg.thresholds.max_signals_per_digest,
          compositeOf b.2 ≤ compositeOf a.2) ∧
      (∀ a b : Signal × JVal,
        [a, b].Sublist
          (pairs.filter (fun p => cfg.thresholds.include_in_digest ≤ compositeOf p.2)) →
        compositeOf b.2 ≤ compositeOf a.2 →
        [a, b].Sublist (sortByDesc (fun p => compositeOf p.2)
          (pairs.filter (fun p => cfg.thresholds.include_in_digest ≤ compositeOf p.2)))) := by
  unfold stage_score at h
  split at h
  · rename_i hemp
    simp only [Except.ok.injEq] at h
    subst h
    have hv : validated = [] := List.isEmpty_iff.mp hemp
    subst hv
    refine ⟨rfl, [], rfl, rfl, by simp [sortByDesc], by simp, List.Pairwise.nil, ?_, ?_, ?_⟩
    · intro p hp
      cases hp
    · intro a ha
      cases ha
    · intro a b hab _
      cases hab
  · cases hf : List.foldlM (scoreBatchStep cfg client) []
        (chunkList AI_BATCH_SIZE validated) with
    | error e => rw [hf] at h; cases h
    | ok pairs =>
      rw [hf] at h
      simp only [Except.ok.injEq] at h
      subst h
      have hfst : pairs.map Prod.fst = validated := by
        have := foldlM_scoreBatchStep_fst cfg client
          (chunkList AI_BATCH_SIZE validated) [] pairs hf
        rw [chunkList_flatten] at this
        simpa using this
      set key := fun p : Signal × JVal => compositeOf p.2 with hkey
      set filtered := pairs.filter
        (fun p => cfg.thresholds.include_in_digest ≤ compositeOf p.2) with hfiltered
      refine ⟨?_, pairs, hfst, rfl, rfl, ?_, ?_, ?_, ?_, ?_⟩
      · show (pairs.map (fun p => (p.1.id, p.2))).map Prod.fst = validated.map Signal.id
        rw [List.map_map, ← hfst, List.map_map]
        rfl
      · exact List.length_take_le _ _
      · exact List.Pairwise.sublist (List.take_sublist _ _)
          (pairwise_sortByDesc key filtered)
      · intro p hp
        have hsorted : p ∈ sortByDesc key filtered :=
          List.mem_of_mem_take hp
        have hfilt : p ∈ filtered := (sortByDesc_perm key filtered).mem_iff.mp hsorted
        obtain ⟨hpp, hpred⟩ := List.mem_filter.mp hfilt
        refine ⟨of_decide_eq_true hpred, ?_⟩
        exact List.mem_map.mpr ⟨p, hpp, rfl⟩
      · intro a ha b hb
        exact pairwise_take_drop (pairwise_sortByDesc key filtered)
          cfg.thresholds.max_signals_per_digest a ha b hb
      · intro a b hab hba
        exact sortByDesc_stable key a b filtered hab hba

theorem stage_score_gating_witness :
    heuRunResult.persisted.map Prod.fst = [weatherSignal].map Signal.id ∧
    heuRunResult.digest.length ≤ cfgHeu.thresholds.max_signals_per_digest := by
  obtain ⟨h1, pairs, hp⟩ :=
    stage_score_gating cfgHeu offlineClient [weatherSignal] heuRunResult rfl
  exact ⟨h1, hp.2.2.2.1⟩

/-- The production weight configuration (35/25/25/15). -/
def defaultWeights : ScoringWeights := ⟨35/100, 25/100, 25/100, 15/100⟩

def sampleScores : List (String × ℚ) :=
  [("revenue_impact", 8), ("time_sensitivity", 6),
   ("strategic_alignment", 7), ("competitive_pressure", 5)]

theorem composite_weighted_sum_in_range_witness :
    1 ≤ calculate_composite_score defaultWeights sampleScores ∧
    calculate_composite_score defaultWeights sampleScores ≤ 10 := by
  have h := composite_weighted_sum_in_range defaultWeights sampleScores
    (by norm_num [defaultWeights]) (by norm_num [defaultWeights])
    (by norm_num [defaultWeights]) (by norm_num [defaultWeights])
    (by norm_num [defaultWeights])
    (by rw [show scoreGet sampleScores "revenue_impact" = 8 from rfl]; norm_num)
    (by rw [show scoreGet sampleScores "time_sensitivity" = 6 from rfl]; norm_num)
    (by rw [show scoreGet sampleScores "strategic_alignment" = 7 from rfl]; norm_num)
    (by rw [show scoreGet sampleScores "competitive_pressure" = 5 from rfl]; norm_num)
  exact ⟨h.2.1, h.2.2⟩
